import Mathlib

/-!
Shallow embedding of `get_world_cities.py`: an incremental city-enrichment
pipeline with three write-through caches (name→EID, country-EID→record,
state-EID→record), an append-only output ledger used as the resumability
checkpoint, and a fixed pacing delay.

JSON values are modelled by `Val`; Python dicts by the association structure
`Fields` (first-match lookup, replace-or-append assignment, as for a dict
whose keys are unique).  The external knowledge-base API is an explicit
`Oracle` record: `search` models the `wbsearchentities` call inside
`get_wikidata_id` (error = transport/parse failure, `ok none` = zero
results, `ok (some q)` = a top match with id `q`), and `entity` models the
entity-detail endpoint shared by `enrich_city` and `get_entity_info`
(error = transport/parse failure; on success the parsed document's labels
and per-property statement-value lists, the envelope
`mainsnak.datavalue.value` chain being collapsed to the extracted value,
with `Val.vnull` standing for Python `None`).  External calls, cache saves,
ledger appends and `time.sleep(1)` are recorded as `Event`s.
-/

mutual
/-- A JSON-like value as manipulated by the script (Python `None`, `bool`,
number, `str`, `dict`).  Lists never flow through the modelled data paths
(statement lists live in `Doc.claims`), so no array constructor is needed. -/
inductive Val : Type where
  | vnull : Val
  | vbool : Bool → Val
  | vnum : Int → Val
  | vstr : String → Val
  | vobj : Fields → Val
deriving DecidableEq, Repr

/-- A Python dict with string keys, in insertion order. -/
inductive Fields : Type where
  | nil : Fields
  | cons : String → Val → Fields → Fields
deriving DecidableEq, Repr
end

/-- Python `d.get(key)`: the value stored at `key`, if any. -/
def Fields.get : Fields → String → Option Val
  | Fields.nil, _ => none
  | Fields.cons k v rest, key => if k = key then some v else rest.get key

/-- Python `d[key] = v`: replace in place when the key exists, else append. -/
def Fields.set : Fields → String → Val → Fields
  | Fields.nil, key, v => Fields.cons key v Fields.nil
  | Fields.cons k w rest, key, v =>
    if k = key then Fields.cons key v rest else Fields.cons k w (rest.set key v)

/-- The keys of a dict, in order. -/
def Fields.keys : Fields → List String
  | Fields.nil => []
  | Fields.cons k _ rest => k :: rest.keys

/-- Python `d.update(p)`: assign every entry of `p` into `d`, in order. -/
def Fields.update : Fields → Fields → Fields
  | d, Fields.nil => d
  | d, Fields.cons k v rest => (d.set k v).update rest

/-- Python truthiness on the modelled values (`None`, `False`, `0`, `""` and
`{}` are falsy). -/
def Val.truthy : Val → Bool
  | Val.vnull => false
  | Val.vbool b => b
  | Val.vnum n => n != 0
  | Val.vstr s => s != ""
  | Val.vobj f => f != Fields.nil

/-- First-match lookup in an association list (a Python dict keyed by `α`). -/
def alookup {α β : Type} [DecidableEq α] : List (α × β) → α → Option β
  | [], _ => none
  | (k, v) :: rest, key => if k = key then some v else alookup rest key

/-- Dict assignment on an association list: replace in place or append. -/
def aset {α β : Type} [DecidableEq α] : List (α × β) → α → β → List (α × β)
  | [], key, v => [(key, v)]
  | (k, w) :: rest, key, v =>
    if k = key then (key, v) :: rest else (k, w) :: aset rest key v

/-- One observable action of the script: an external search request, an
entity-detail request issued by `enrich_city`, an entity-detail request
issued by `get_entity_info` (tagged with its `level` argument), a
`save_json` of one of the three caches, an `append_jsonl` to the output
ledger, or the `time.sleep(1)` pacing delay. -/
inductive Event : Type where
  | searchCall : String → Event
  | cityCall : String → Event
  | infoCall : String → Val → Event
  | saveQid : Event
  | saveCountry : Event
  | saveState : Event
  | appendOut : Event
  | sleepCall : Event
deriving DecidableEq, Repr

/-- The part of a parsed entity-detail document the script reads: `labels`
maps a locale to the label's `value` entry, and `claims` maps a property
code to the list of its statements' extracted values (the
`mainsnak.datavalue.value` payload of each statement, `Val.vnull` when that
chain is absent). -/
structure Doc : Type where
  labels : List (String × Val)
  claims : List (String × List Val)

/-- The external knowledge-base API, fixed and deterministic for a given
verification scenario.  `Except.error` models a transport or parse failure
(any exception inside the corresponding `try`). -/
structure Oracle : Type where
  search : String → Except Unit (Option String)
  entity : Val → Except Unit Doc

/-- `labels.get(loc, {}).get("value")` from the source. -/
def labelOf (d : Doc) (loc : String) : Val :=
  (alookup d.labels loc).getD Val.vnull

/-- `get_claim` from the source: the first statement value of a property,
`Val.vnull` (Python `None`) when the property is absent or has no values. -/
def get_claim (d : Doc) (prop : String) : Val :=
  match alookup d.claims prop with
  | none => Val.vnull
  | some [] => Val.vnull
  | some (v :: _) => v

/-- `get_wikidata_id(name, qid_lookup)` from the source: return the cached
id when `name` is a key of `qid_lookup`; otherwise issue one search request;
on a top match cache it (and `save_json` the cache) and return it; on zero
results or any failure return `None` and leave the cache untouched.
Returns the result, the updated cache and the emitted events. -/
def get_wikidata_id (o : Oracle) (name : String) (ql : List (String × String)) :
    Option String × List (String × String) × List Event :=
  match alookup ql name with
  | some q => (some q, ql, [])
  | none =>
    match o.search name with
    | Except.error _ => (none, ql, [Event.searchCall name])
    | Except.ok none => (none, ql, [Event.searchCall name])
    | Except.ok (some q) => (some q, aset ql name q, [Event.searchCall name, Event.saveQid])

/-- `get_entity_info(qid, level)` from the source: fetch the entity
document; on any failure return `{}`; otherwise build
`{levelQID, levelNameEn, levelNameAr}` plus, for `Country`,
`IsoAlpha2` (P297) and — when the first P36 value is a dict — `CapitalQID`,
and for `State`, `IsoCode` (P300) and — when the first P17 value is a dict —
`CountryQID`. -/
def get_entity_info (o : Oracle) (qid : Val) (level : String) : Fields × List Event :=
  (match o.entity qid with
   | Except.error _ => Fields.nil
   | Except.ok d =>
     let info := Fields.cons (level ++ "QID") qid
       (Fields.cons (level ++ "NameEn") (labelOf d "en")
       (Fields.cons (level ++ "NameAr") (labelOf d "ar") Fields.nil))
     if level = "Country" then
       let info := info.set "IsoAlpha2" (get_claim d "P297")
       match get_claim d "P36" with
       | Val.vobj cap => info.set "CapitalQID" ((cap.get "id").getD Val.vnull)
       | _ => info
     else if level = "State" then
       let info := info.set "IsoCode" (get_claim d "P300")
       match get_claim d "P17" with
       | Val.vobj par => info.set "CountryQID" ((par.get "id").getD Val.vnull)
       | _ => info
     else info,
   [Event.infoCall level qid])

/-- `get_claim(p).get("id") if isinstance(get_claim(p), dict) else None`
from `enrich_city`. -/
def idPart (v : Val) : Val :=
  match v with
  | Val.vobj c => (c.get "id").getD Val.vnull
  | _ => Val.vnull

/-- `get_claim("P1082").get("amount") if isinstance(..., dict) else
get_claim("P1082")` from `enrich_city`. -/
def popPart (v : Val) : Val :=
  match v with
  | Val.vobj c => (c.get "amount").getD Val.vnull
  | _ => v

/-- `get_claim("P625")[k] if get_claim("P625") else None` from
`enrich_city`; `none` models the exception raised when the P625 value is
truthy but is not a dict carrying key `k` (caught by the function's
`except`, which then returns `{}`). -/
def coordPart (p625 : Val) (k : String) : Option Val :=
  if p625.truthy then
    match p625 with
    | Val.vobj c => c.get k
    | _ => none
  else some Val.vnull

/-- `enrich_city(qid)` from the source: fetch the city document; on any
failure (including a malformed coordinate value) return `{}`; otherwise the
seven-field city record. -/
def enrich_city (o : Oracle) (qid : String) : Fields × List Event :=
  (match o.entity (Val.vstr qid) with
   | Except.error _ => Fields.nil
   | Except.ok d =>
     match coordPart (get_claim d "P625") "latitude",
           coordPart (get_claim d "P625") "longitude" with
     | some lat, some lon =>
       Fields.cons "CityNameAr" (labelOf d "ar")
       (Fields.cons "CountryQID" (idPart (get_claim d "P17"))
       (Fields.cons "StateQID" (idPart (get_claim d "P131"))
       (Fields.cons "Latitude" lat
       (Fields.cons "Longitude" lon
       (Fields.cons "Population" (popPart (get_claim d "P1082"))
       (Fields.cons "IsoCode" (get_claim d "P300") Fields.nil))))))
     | _, _ => Fields.nil,
   [Event.cityCall qid])

/-- The durable state of the job: the three caches and the output ledger
(the persisted files, every cache mutation being written through by
`save_json` and every ledger append by `append_jsonl`). -/
structure St : Type where
  qidLookup : List (String × String)
  countryCache : List (Val × Fields)
  stateCache : List (Val × Fields)
  ledger : List Fields
deriving DecidableEq, Repr

/-- `record.get("CityNameEn")` as used on ledger records and on input
records (Python `None` when absent). -/
def recName (r : Fields) : Val := (r.get "CityNameEn").getD Val.vnull

/-- The name of an input record as the string passed to
`get_wikidata_id`; the source's `city["CityNameEn"]` presupposes the key
is present with a string value (a `wf_input` hypothesis in the theorems),
and this model defaults to `""` otherwise. -/
def cityNameStr (r : Fields) : String :=
  match r.get "CityNameEn" with
  | some (Val.vstr s) => s
  | _ => ""

/-- `load_processed_city_names()` from the source, restricted to the two
line kinds under which it is total: `some r` is a line that parses to the
JSON object `r`, `none` a malformed line (its `json.loads` raises
`JSONDecodeError`, which is caught, and the line is skipped).  Each parsed
record contributes `record.get("CityNameEn")` to the set.  A line that
parses to valid JSON that is *not* an object is outside this type: on such
a line the source raises an uncaught `AttributeError` at
`record.get(...)`; the full line alphabet and that failure path are
modelled by `LedgerLine` and `load_ledger` below.  Pipeline runs and their
ledgers (`process_entries` writes only records) stay within this
restriction. -/
def load_processed_city_names (lines : List (Option Fields)) : Finset Val :=
  match lines with
  | [] => ∅
  | none :: rest => load_processed_city_names rest
  | some r :: rest => insert (recName r) (load_processed_city_names rest)

/-- The country-enrichment block of `process_entries` (source lines
156-169), acting on the country cache and the record under construction:
when `city_info.get("CountryQID")` is truthy, fetch-and-store on cache
miss (with an immediate `save_json`), attach `CountryDetails`, and set
`IsCapital` to `country_info.get("CapitalQID") == qid`; otherwise set
`IsCapital` to `False`. -/
def countryPhase (o : Oracle) (cc : List (Val × Fields)) (city ci : Fields) (qid : String) :
    List (Val × Fields) × Fields × List Event :=
  let cqid := (ci.get "CountryQID").getD Val.vnull
  if cqid.truthy then
    let r :=
      if (alookup cc cqid).isSome then (cc, ([] : List Event))
      else
        let fi := get_entity_info o cqid "Country"
        (aset cc cqid fi.1, fi.2 ++ [Event.saveCountry])
    let country_info := (alookup r.1 cqid).getD Fields.nil
    let city := city.set "CountryDetails" (Val.vobj country_info)
    let city := city.set "IsCapital"
      (Val.vbool (decide (country_info.get "CapitalQID" = some (Val.vstr qid))))
    (r.1, city, r.2)
  else (cc, city.set "IsCapital" (Val.vbool false), [])

/-- The state-enrichment block of `process_entries` (source lines 171-177):
when `city_info.get("StateQID")` is truthy, fetch-and-store on cache miss
(with an immediate `save_json`) and attach `StateDetails`. -/
def statePhase (o : Oracle) (sc : List (Val × Fields)) (city ci : Fields) :
    List (Val × Fields) × Fields × List Event :=
  let sqid := (ci.get "StateQID").getD Val.vnull
  if sqid.truthy then
    let r :=
      if (alookup sc sqid).isSome then (sc, ([] : List Event))
      else
        let fi := get_entity_info o sqid "State"
        (aset sc sqid fi.1, fi.2 ++ [Event.saveState])
    (r.1, city.set "StateDetails" (Val.vobj ((alookup r.1 sqid).getD Fields.nil)), r.2)
  else (sc, city, [])

/-- The body of the loop of `process_entries` after a truthy `qid` (source
lines 153-180): enrich the city, merge (`city.update(city_info)`), run the
country and state blocks, append the record to the ledger, then sleep. -/
def emitBody (o : Oracle) (σ : St) (city : Fields) (qid : String) : St × List Event :=
  let ec := enrich_city o qid
  let city1 := city.update ec.1
  let cp := countryPhase o σ.countryCache city1 ec.1 qid
  let sp := statePhase o σ.stateCache cp.2.1 ec.1
  ({ qidLookup := σ.qidLookup, countryCache := cp.1, stateCache := sp.1,
     ledger := σ.ledger ++ [sp.2.1] },
   ec.2 ++ cp.2.2 ++ sp.2.2 ++ [Event.appendOut, Event.sleepCall])

/-- One iteration of the loop of `process_entries` (source lines 145-180):
resolve the name; `if not qid: continue` (no append, no sleep); otherwise
the emit path. -/
def runStep (o : Oracle) (σ : St) (city : Fields) : St × List Event :=
  let gw := get_wikidata_id o (cityNameStr city) σ.qidLookup
  let σ1 : St := { σ with qidLookup := gw.2.1 }
  match gw.1 with
  | none => (σ1, gw.2.2)
  | some qid =>
    if qid = "" then (σ1, gw.2.2)
    else
      let eb := emitBody o σ1 city qid
      (eb.1, gw.2.2 ++ eb.2)

/-- The loop of `process_entries` over the filtered work list. -/
def processList (o : Oracle) (σ : St) : List Fields → St × List Event
  | [] => (σ, [])
  | c :: cs =>
    let s1 := runStep o σ c
    let s2 := processList o s1.1 cs
    (s2.1, s1.2 ++ s2.2)

/-- `process_entries()` from the source over already-loaded durable state:
reconstruct the processed-name set from the ledger, keep the input records
whose `CityNameEn` is not in it, and process them in order. -/
def process_entries (o : Oracle) (cities : List Fields) (σ : St) : St × List Event :=
  let processed := load_processed_city_names (σ.ledger.map Option.some)
  let toProcess := cities.filter (fun c => decide (recName c ∉ processed))
  processList o σ toProcess

/-- The on-disk condition of one persisted JSON file at startup. -/
inductive FileContent : Type where
  | absent : FileContent
  | malformed : FileContent
  | valid : Val → FileContent
deriving DecidableEq, Repr

/-- `load_json(path)` from the source: `{}` when the file does not exist;
otherwise `json.load`, whose `JSONDecodeError` on a malformed file is not
caught and propagates (modelled as `Except.error`). -/
def load_json : FileContent → Except Unit Val
  | FileContent.absent => Except.ok (Val.vobj Fields.nil)
  | FileContent.malformed => Except.error ()
  | FileContent.valid v => Except.ok v

/-- `json.load(open(INPUT_FILE))` from the source: raises when the input
file is missing (`FileNotFoundError`) or unparseable (`JSONDecodeError`). -/
def load_input : FileContent → Except Unit Val
  | FileContent.absent => Except.error ()
  | FileContent.malformed => Except.error ()
  | FileContent.valid v => Except.ok v

/-- One line of the ledger file, with the full alphabet the source
distinguishes: `malformed` — `json.loads` raises `JSONDecodeError`, which
is caught and the line skipped; `record r` — the line parses to the JSON
object `r`; `nonRecord` — the line parses to valid JSON that is not an
object (e.g. `null`, `42`, `"x"` or an array), on which
`record.get("CityNameEn")` raises an `AttributeError` that nothing
catches, so startup terminates. -/
inductive LedgerLine : Type where
  | malformed : LedgerLine
  | record : Fields → LedgerLine
  | nonRecord : LedgerLine
deriving DecidableEq, Repr

/-- The restriction of a non-crashing line to the two-kind alphabet of
`load_processed_city_names`. -/
def lineAsOption : LedgerLine → Option Fields
  | LedgerLine.malformed => none
  | LedgerLine.record r => some r
  | LedgerLine.nonRecord => none

/-- The loop of `load_processed_city_names` (source lines 36-41) over the
full line alphabet: an accumulator pass that skips malformed lines, adds
each record's `CityNameEn`, and raises (uncaught `AttributeError`) on a
valid-JSON non-object line. -/
def replay_ledger : Finset Val → List LedgerLine → Except Unit (Finset Val)
  | acc, [] => Except.ok acc
  | acc, LedgerLine.malformed :: rest => replay_ledger acc rest
  | acc, LedgerLine.record r :: rest => replay_ledger (insert (recName r) acc) rest
  | _, LedgerLine.nonRecord :: _ => Except.error ()

/-- `load_processed_city_names()` over the full line alphabet: fallible,
starting from the empty set. -/
def load_ledger (lines : List LedgerLine) : Except Unit (Finset Val) :=
  replay_ledger ∅ lines

/-- The startup sequence of `process_entries` (source lines 136-140): load
the input file (failures propagate and terminate the process), the three
caches via `load_json` (a malformed existing file propagates), and the
processed-name set by replaying the ledger file (a valid-JSON non-object
line propagates; malformed lines are skipped). -/
def process_entries_startup (inputF qidF ctryF stateF : FileContent)
    (ledgerLines : List LedgerLine) :
    Except Unit (Val × Val × Val × Val × Finset Val) := do
  let cities ← load_input inputF
  let ql ← load_json qidF
  let cc ← load_json ctryF
  let sc ← load_json stateF
  let processed ← load_ledger ledgerLines
  Except.ok (cities, ql, cc, sc, processed)

/-- Did the resolver produce a truthy id (the `if not qid:` test of the
loop, negated)? -/
def resolved (o : Oracle) (ql : List (String × String)) (n : String) : Bool :=
  match (get_wikidata_id o n ql).1 with
  | none => false
  | some q => q != ""

theorem Fields.get_set_self : ∀ (f : Fields) (k : String) (v : Val),
    (f.set k v).get k = some v
  | Fields.nil, k, v => by simp [Fields.set, Fields.get]
  | Fields.cons k' w rest, k, v => by
    by_cases h : k' = k
    · subst h; simp [Fields.set, Fields.get]
    · simp [Fields.set, Fields.get, h, Fields.get_set_self rest k v]

theorem Fields.get_set_ne : ∀ (f : Fields) (key k : String) (v : Val), key ≠ k →
    (f.set key v).get k = f.get k
  | Fields.nil, key, k, v, h => by simp [Fields.set, Fields.get, h]
  | Fields.cons k' w rest, key, k, v, h => by
    by_cases h' : k' = key
    · subst h'; simp [Fields.set, Fields.get, h]
    · simp [Fields.set, Fields.get, h', Fields.get_set_ne rest key k v h]

theorem Fields.get_update_not_mem : ∀ (p : Fields) (d : Fields) (k : String),
    k ∉ p.keys → (d.update p).get k = d.get k
  | Fields.nil, d, k, _ => by simp [Fields.update]
  | Fields.cons k' v rest, d, k, h => by
    simp only [Fields.keys, List.mem_cons, not_or] at h
    rw [Fields.update, Fields.get_update_not_mem rest _ k h.2,
      Fields.get_set_ne d k' k v (fun he => h.1 he.symm)]

theorem alookup_aset_self {α β : Type} [DecidableEq α] (l : List (α × β)) (k : α) (v : β) :
    alookup (aset l k v) k = some v := by
  induction l with
  | nil => simp [aset, alookup]
  | cons kv rest ih =>
    by_cases h : kv.1 = k
    · simp [aset, h, alookup]
    · simp [aset, h, alookup, ih]

theorem alookup_aset_ne {α β : Type} [DecidableEq α] (l : List (α × β)) {key k : α}
    (v : β) (h : key ≠ k) : alookup (aset l key v) k = alookup l k := by
  induction l with
  | nil => simp [aset, alookup, h]
  | cons kv rest ih =>
    by_cases h' : kv.1 = key
    · simp [aset, h', alookup, h]
    · simp only [aset, h', if_false, alookup, ih]

/-- Exhaustive case analysis of `get_wikidata_id`: a cache hit, a miss with
a failed or empty search (no cache write), or a miss with a top match
(cached and saved). -/
theorem get_wikidata_id_spec (o : Oracle) (n : String) (ql : List (String × String)) :
    (∃ q, alookup ql n = some q ∧ get_wikidata_id o n ql = (some q, ql, [])) ∨
    (alookup ql n = none ∧ (o.search n = Except.error () ∨ o.search n = Except.ok none) ∧
       get_wikidata_id o n ql = (none, ql, [Event.searchCall n])) ∨
    (∃ q, alookup ql n = none ∧ o.search n = Except.ok (some q) ∧
       get_wikidata_id o n ql =
         (some q, aset ql n q, [Event.searchCall n, Event.saveQid])) := by
  rcases hl : alookup ql n with _ | q
  · rcases hs : o.search n with u | r
    · exact Or.inr (Or.inl ⟨rfl, Or.inl rfl, by simp [get_wikidata_id, hl, hs]⟩)
    · rcases r with _ | q
      · exact Or.inr (Or.inl ⟨rfl, Or.inr rfl, by simp [get_wikidata_id, hl, hs]⟩)
      · exact Or.inr (Or.inr ⟨q, rfl, rfl, by simp [get_wikidata_id, hl, hs]⟩)
  · exact Or.inl ⟨q, rfl, by simp [get_wikidata_id, hl]⟩

/-- `city.update(city_info)` for a resolved city. -/
def mergedCity (o : Oracle) (city : Fields) (q : String) : Fields :=
  city.update (enrich_city o q).1

/-- The country block of a step, applied to the merged record. -/
def cPhase (o : Oracle) (cc : List (Val × Fields)) (city : Fields) (q : String) :
    List (Val × Fields) × Fields × List Event :=
  countryPhase o cc (mergedCity o city q) (enrich_city o q).1 q

/-- The state block of a step, applied after the country block. -/
def sPhase (o : Oracle) (sc cc : List (Val × Fields)) (city : Fields) (q : String) :
    List (Val × Fields) × Fields × List Event :=
  statePhase o sc (cPhase o cc city q).2.1 (enrich_city o q).1

/-- The Output Record appended to the ledger for a resolved city. -/
def outRec (o : Oracle) (cc sc : List (Val × Fields)) (city : Fields) (q : String) : Fields :=
  (sPhase o sc cc city q).2.1

/-- The country block either leaves the cache alone with no events (country
EID falsy, or already cached), or — on a truthy uncached country EID —
stores the fetch result and emits exactly the fetch and the save. -/
theorem countryPhase_spec (o : Oracle) (cc : List (Val × Fields)) (city ci : Fields)
    (qid : String) :
    ((countryPhase o cc city ci qid).1 = cc ∧ (countryPhase o cc city ci qid).2.2 = []) ∨
    (((ci.get "CountryQID").getD Val.vnull).truthy = true ∧
     alookup cc ((ci.get "CountryQID").getD Val.vnull) = none ∧
     (countryPhase o cc city ci qid).1 =
       aset cc ((ci.get "CountryQID").getD Val.vnull)
         (get_entity_info o ((ci.get "CountryQID").getD Val.vnull) "Country").1 ∧
     (countryPhase o cc city ci qid).2.2 =
       [Event.infoCall "Country" ((ci.get "CountryQID").getD Val.vnull),
        Event.saveCountry]) := by
  by_cases ht : ((ci.get "CountryQID").getD Val.vnull).truthy
  · rcases hl : alookup cc ((ci.get "CountryQID").getD Val.vnull) with _ | v
    · refine Or.inr ⟨ht, rfl, ?_, ?_⟩ <;>
        simp [countryPhase, ht, hl, get_entity_info]
    · refine Or.inl ⟨?_, ?_⟩ <;> simp [countryPhase, ht, hl]
  · refine Or.inl ⟨?_, ?_⟩ <;> simp [countryPhase, ht]

/-- State-block analogue of `countryPhase_spec`. -/
theorem statePhase_spec (o : Oracle) (sc : List (Val × Fields)) (city ci : Fields) :
    ((statePhase o sc city ci).1 = sc ∧ (statePhase o sc city ci).2.2 = []) ∨
    (((ci.get "StateQID").getD Val.vnull).truthy = true ∧
     alookup sc ((ci.get "StateQID").getD Val.vnull) = none ∧
     (statePhase o sc city ci).1 =
       aset sc ((ci.get "StateQID").getD Val.vnull)
         (get_entity_info o ((ci.get "StateQID").getD Val.vnull) "State").1 ∧
     (statePhase o sc city ci).2.2 =
       [Event.infoCall "State" ((ci.get "StateQID").getD Val.vnull),
        Event.saveState]) := by
  by_cases ht : ((ci.get "StateQID").getD Val.vnull).truthy
  · rcases hl : alookup sc ((ci.get "StateQID").getD Val.vnull) with _ | v
    · refine Or.inr ⟨ht, rfl, ?_, ?_⟩ <;>
        simp [statePhase, ht, hl, get_entity_info]
    · refine Or.inl ⟨?_, ?_⟩ <;> simp [statePhase, ht, hl]
  · refine Or.inl ⟨?_, ?_⟩ <;> simp [statePhase, ht]

/-- The country block only writes the `CountryDetails` and `IsCapital`
fields of the record under construction. -/
theorem countryPhase_get_frame (o : Oracle) (cc : List (Val × Fields)) (city ci : Fields)
    (qid : String) {k : String} (h1 : k ≠ "CountryDetails") (h2 : k ≠ "IsCapital") :
    ((countryPhase o cc city ci qid).2.1).get k = city.get k := by
  by_cases ht : ((ci.get "CountryQID").getD Val.vnull).truthy
  · simp only [countryPhase, ht, if_true]
    rw [Fields.get_set_ne _ _ _ _ (Ne.symm h2), Fields.get_set_ne _ _ _ _ (Ne.symm h1)]
  · simp only [countryPhase, ht, Bool.false_eq_true, if_false]
    rw [Fields.get_set_ne _ _ _ _ (Ne.symm h2)]

/-- The state block only writes the `StateDetails` field. -/
theorem statePhase_get_frame (o : Oracle) (sc : List (Val × Fields)) (city ci : Fields)
    {k : String} (h1 : k ≠ "StateDetails") :
    ((statePhase o sc city ci).2.1).get k = city.get k := by
  by_cases ht : ((ci.get "StateQID").getD Val.vnull).truthy
  · simp only [statePhase, ht, if_true]
    rw [Fields.get_set_ne _ _ _ _ (Ne.symm h1)]
  · simp only [statePhase, ht, Bool.false_eq_true, if_false]

/-- The `IsCapital` value the country block stores: false when the country
EID is falsy, else the equality test of the country record's `CapitalQID`
against the city's own id, where the country record is the one under the
country EID in the block's resulting cache. -/
theorem countryPhase_iscapital (o : Oracle) (cc : List (Val × Fields)) (city ci : Fields)
    (qid : String) :
    ((countryPhase o cc city ci qid).2.1).get "IsCapital" =
      some (Val.vbool (((ci.get "CountryQID").getD Val.vnull).truthy &&
        decide ((((alookup (countryPhase o cc city ci qid).1
            ((ci.get "CountryQID").getD Val.vnull)).getD Fields.nil).get "CapitalQID")
          = some (Val.vstr qid)))) := by
  by_cases ht : ((ci.get "CountryQID").getD Val.vnull).truthy
  · simp only [countryPhase, ht, if_true, Bool.true_and]
    rw [Fields.get_set_self]
  · simp only [countryPhase, ht, Bool.false_eq_true, if_false, Bool.false_and]
    rw [Fields.get_set_self]

/-- Unfolding of the emit path of one loop iteration. -/
theorem emitBody_eq (o : Oracle) (σ : St) (city : Fields) (q : String) :
    emitBody o σ city q =
      ({ qidLookup := σ.qidLookup,
         countryCache := (cPhase o σ.countryCache city q).1,
         stateCache := (sPhase o σ.stateCache σ.countryCache city q).1,
         ledger := σ.ledger ++ [outRec o σ.countryCache σ.stateCache city q] },
       (enrich_city o q).2 ++ (cPhase o σ.countryCache city q).2.2 ++
         (sPhase o σ.stateCache σ.countryCache city q).2.2 ++
         [Event.appendOut, Event.sleepCall]) := rfl

/-- A skipped record (`if not qid: continue`): only the name cache may have
changed, and the only events are those of the resolution attempt. -/
theorem runStep_skip (o : Oracle) (σ : St) (c : Fields)
    (h : resolved o σ.qidLookup (cityNameStr c) = false) :
    (runStep o σ c).1 =
      { σ with qidLookup := (get_wikidata_id o (cityNameStr c) σ.qidLookup).2.1 } ∧
    (runStep o σ c).2 = (get_wikidata_id o (cityNameStr c) σ.qidLookup).2.2 := by
  unfold resolved at h
  rcases hgw : get_wikidata_id o (cityNameStr c) σ.qidLookup with ⟨q?, ql1, ev1⟩
  rw [hgw] at h
  rcases q? with _ | q
  · constructor <;> simp [runStep, hgw]
  · simp only [bne_iff_ne, ne_eq, Bool.ite_eq_false_distrib] at h
    by_cases hq : q = ""
    · subst hq; constructor <;> simp [runStep, hgw]
    · simp [hq] at h

/-- An emitted record (`qid` truthy): full unfolding of the step. -/
theorem runStep_emit (o : Oracle) (σ : St) (c : Fields) {q : String}
    (hq : (get_wikidata_id o (cityNameStr c) σ.qidLookup).1 = some q) (hqt : q ≠ "") :
    runStep o σ c =
      ({ qidLookup := (get_wikidata_id o (cityNameStr c) σ.qidLookup).2.1,
         countryCache := (cPhase o σ.countryCache c q).1,
         stateCache := (sPhase o σ.stateCache σ.countryCache c q).1,
         ledger := σ.ledger ++ [outRec o σ.countryCache σ.stateCache c q] },
       (get_wikidata_id o (cityNameStr c) σ.qidLookup).2.2 ++
         ((enrich_city o q).2 ++ (cPhase o σ.countryCache c q).2.2 ++
          (sPhase o σ.stateCache σ.countryCache c q).2.2 ++
          [Event.appendOut, Event.sleepCall])) := by
  rcases hgw : get_wikidata_id o (cityNameStr c) σ.qidLookup with ⟨q?, ql1, ev1⟩
  rw [hgw] at hq
  rcases q? with _ | q'
  · cases hq
  · cases hq
    simp only [runStep, hgw, hqt, if_false, emitBody_eq]

theorem enrich_city_events (o : Oracle) (q : String) :
    (enrich_city o q).2 = [Event.cityCall q] := rfl

theorem resolved_eq (o : Oracle) (ql : List (String × String)) (n : String) :
    resolved o ql n =
      (match alookup ql n with
       | some q => q != ""
       | none =>
         match o.search n with
         | Except.ok (some q) => q != ""
         | _ => false) := by
  rcases get_wikidata_id_spec o n ql with ⟨q, hl, he⟩ | ⟨hl, hs, he⟩ | ⟨q, hl, hs, he⟩ <;>
    simp only [resolved, he, hl]
  · rcases hs with hs | hs <;> rw [hs]
  · rw [hs]

theorem resolved_true (o : Oracle) (ql : List (String × String)) (n : String)
    (h : resolved o ql n = true) :
    ∃ q, (get_wikidata_id o n ql).1 = some q ∧ q ≠ "" := by
  unfold resolved at h
  rcases hgw : (get_wikidata_id o n ql).1 with _ | q
  · rw [hgw] at h; cases h
  · rw [hgw] at h; exact ⟨q, rfl, by simpa using h⟩

theorem resolved_false_aset (o : Oracle) (ql : List (String × String)) (n m q' : String)
    (hm : alookup ql m = none) (hs : o.search m = Except.ok (some q'))
    (h : resolved o ql n = false) : resolved o (aset ql m q') n = false := by
  by_cases hmn : m = n
  · subst hmn
    rw [resolved_eq] at h ⊢
    rw [alookup_aset_self]
    rw [hm, hs] at h
    exact h
  · rw [resolved_eq] at h ⊢
    rw [alookup_aset_ne ql q' hmn]
    exact h

theorem runStep_qidLookup (o : Oracle) (σ : St) (c : Fields) :
    (runStep o σ c).1.qidLookup = (get_wikidata_id o (cityNameStr c) σ.qidLookup).2.1 := by
  unfold runStep
  rcases hgw : get_wikidata_id o (cityNameStr c) σ.qidLookup with ⟨q?, ql1, ev1⟩
  rcases q? with _ | q
  · rfl
  · by_cases hq : q = "" <;> simp [hq, emitBody_eq]

theorem runStep_resolved_false (o : Oracle) (σ : St) (c : Fields) (n : String)
    (h : resolved o σ.qidLookup n = false) :
    resolved o (runStep o σ c).1.qidLookup n = false := by
  rw [runStep_qidLookup]
  rcases get_wikidata_id_spec o (cityNameStr c) σ.qidLookup with ⟨q, hl, he⟩ | ⟨hl, hs, he⟩ |
    ⟨q, hl, hs, he⟩ <;> rw [he]
  · exact h
  · exact h
  · exact resolved_false_aset o σ.qidLookup n (cityNameStr c) q hl hs h

theorem gw_qid_present (o : Oracle) (m : String) (ql : List (String × String)) {n q : String}
    (h : alookup ql n = some q) :
    alookup (get_wikidata_id o m ql).2.1 n = some q ∧
    (get_wikidata_id o m ql).2.2.count (Event.searchCall n) = 0 := by
  rcases get_wikidata_id_spec o m ql with ⟨q', hl, he⟩ | ⟨hl, hs, he⟩ | ⟨q', hl, hs, he⟩ <;>
    rw [he]
  · exact ⟨h, rfl⟩
  · have hmn : m ≠ n := fun he2 => by rw [he2, h] at hl; cases hl
    exact ⟨h, by simp [List.count_cons, hmn]⟩
  · have hmn : m ≠ n := fun he2 => by rw [he2, h] at hl; cases hl
    exact ⟨by rw [alookup_aset_ne ql q' hmn]; exact h, by simp [List.count_cons, hmn]⟩

theorem gw_events (o : Oracle) (n : String) (ql : List (String × String)) :
    (get_wikidata_id o n ql).2.2 = [] ∨
    (get_wikidata_id o n ql).2.2 = [Event.searchCall n] ∨
    (get_wikidata_id o n ql).2.2 = [Event.searchCall n, Event.saveQid] := by
  rcases get_wikidata_id_spec o n ql with ⟨q, _, he⟩ | ⟨_, _, he⟩ | ⟨q, _, _, he⟩ <;>
    rw [he]
  · exact Or.inl rfl
  · exact Or.inr (Or.inl rfl)
  · exact Or.inr (Or.inr rfl)

theorem runStep_qid_present (o : Oracle) (σ : St) (c : Fields) {n q : String}
    (h : alookup σ.qidLookup n = some q) :
    alookup (runStep o σ c).1.qidLookup n = some q ∧
    (runStep o σ c).2.count (Event.searchCall n) = 0 := by
  by_cases hres : resolved o σ.qidLookup (cityNameStr c) = true
  · rcases resolved_true o σ.qidLookup (cityNameStr c) hres with ⟨q', hq', hqt⟩
    rw [runStep_emit o σ c hq' hqt]
    refine ⟨(gw_qid_present o (cityNameStr c) σ.qidLookup h).1, ?_⟩
    simp only [cPhase, sPhase, List.count_append]
    rw [(gw_qid_present o (cityNameStr c) σ.qidLookup h).2]
    rcases countryPhase_spec o σ.countryCache (mergedCity o c q') (enrich_city o q').1 q' with
      ⟨hcc, hev⟩ | ⟨hkt, hmiss, hcc, hev⟩ <;>
    rcases statePhase_spec o σ.stateCache
        (countryPhase o σ.countryCache (mergedCity o c q') (enrich_city o q').1 q').2.1
        (enrich_city o q').1 with ⟨hsc, hev2⟩ | ⟨hst, hsmiss, hsc, hev2⟩ <;>
      simp [hev, hev2, enrich_city_events, List.count_cons]
  · rw [Bool.not_eq_true] at hres
    rcases runStep_skip o σ c hres with ⟨h1, h2⟩
    rw [h1, h2]
    exact gw_qid_present o (cityNameStr c) σ.qidLookup h

/-- A single step fetches a country EID `k` at most once, and only on a
prior cache miss; otherwise the cache entry for `k` is untouched. -/
theorem runStep_country (o : Oracle) (σ : St) (c : Fields) (k : Val) :
    ((runStep o σ c).2.count (Event.infoCall "Country" k) = 0 ∧
     alookup (runStep o σ c).1.countryCache k = alookup σ.countryCache k) ∨
    ((runStep o σ c).2.count (Event.infoCall "Country" k) = 1 ∧
     (alookup (runStep o σ c).1.countryCache k).isSome = true ∧
     alookup σ.countryCache k = none) := by
  by_cases hres : resolved o σ.qidLookup (cityNameStr c) = true
  · rcases resolved_true o σ.qidLookup (cityNameStr c) hres with ⟨q', hq', hqt⟩
    rw [runStep_emit o σ c hq' hqt]
    simp only [cPhase, sPhase, List.count_append]
    rcases countryPhase_spec o σ.countryCache (mergedCity o c q') (enrich_city o q').1 q' with
      ⟨hcc, hev⟩ | ⟨hkt, hmiss, hcc, hev⟩ <;>
    rcases statePhase_spec o σ.stateCache
        (countryPhase o σ.countryCache (mergedCity o c q') (enrich_city o q').1 q').2.1
        (enrich_city o q').1 with ⟨hsc, hev2⟩ | ⟨hst, hsmiss, hsc, hev2⟩ <;>
    rcases gw_events o (cityNameStr c) σ.qidLookup with hg | hg | hg
    all_goals (
      first
      | (refine Or.inl ⟨?_, ?_⟩
         · simp [hg, hev, hev2, enrich_city_events, List.count_cons]
         · simp [hcc])
      | (by_cases hk : (((enrich_city o q').1.get "CountryQID").getD Val.vnull) = k
         · refine Or.inr ⟨?_, ?_, by rw [← hk]; exact hmiss⟩
           · simp [hg, hev, hev2, enrich_city_events, List.count_cons, hk]
           · simp [hcc, hk, alookup_aset_self]
         · refine Or.inl ⟨?_, ?_⟩
           · simp [hg, hev, hev2, enrich_city_events, List.count_cons, hk]
           · rw [hcc, alookup_aset_ne _ _ hk]))
  · rw [Bool.not_eq_true] at hres
    rcases runStep_skip o σ c hres with ⟨h1, h2⟩
    rw [h1, h2]
    refine Or.inl ⟨?_, rfl⟩
    rcases gw_events o (cityNameStr c) σ.qidLookup with hg | hg | hg <;> rw [hg] <;>
      simp [List.count_cons]

/-- State-cache analogue of `runStep_country`. -/
theorem runStep_state (o : Oracle) (σ : St) (c : Fields) (k : Val) :
    ((runStep o σ c).2.count (Event.infoCall "State" k) = 0 ∧
     alookup (runStep o σ c).1.stateCache k = alookup σ.stateCache k) ∨
    ((runStep o σ c).2.count (Event.infoCall "State" k) = 1 ∧
     (alookup (runStep o σ c).1.stateCache k).isSome = true ∧
     alookup σ.stateCache k = none) := by
  by_cases hres : resolved o σ.qidLookup (cityNameStr c) = true
  · rcases resolved_true o σ.qidLookup (cityNameStr c) hres with ⟨q', hq', hqt⟩
    rw [runStep_emit o σ c hq' hqt]
    simp only [cPhase, sPhase, List.count_append]
    rcases countryPhase_spec o σ.countryCache (mergedCity o c q') (enrich_city o q').1 q' with
      ⟨hcc, hev⟩ | ⟨hkt, hmiss, hcc, hev⟩ <;>
    rcases statePhase_spec o σ.stateCache
        (countryPhase o σ.countryCache (mergedCity o c q') (enrich_city o q').1 q').2.1
        (enrich_city o q').1 with ⟨hsc, hev2⟩ | ⟨hst, hsmiss, hsc, hev2⟩ <;>
    rcases gw_events o (cityNameStr c) σ.qidLookup with hg | hg | hg
    all_goals (
      first
      | (refine Or.inl ⟨?_, ?_⟩
         · simp [hg, hev, hev2, enrich_city_events, List.count_cons]
         · simp [hsc])
      | (by_cases hk : (((enrich_city o q').1.get "StateQID").getD Val.vnull) = k
         · refine Or.inr ⟨?_, ?_, by rw [← hk]; exact hsmiss⟩
           · simp [hg, hev, hev2, enrich_city_events, List.count_cons, hk]
           · simp [hsc, hk, alookup_aset_self]
         · refine Or.inl ⟨?_, ?_⟩
           · simp [hg, hev, hev2, enrich_city_events, List.count_cons, hk]
           · rw [hsc, alookup_aset_ne _ _ hk]))
  · rw [Bool.not_eq_true] at hres
    rcases runStep_skip o σ c hres with ⟨h1, h2⟩
    rw [h1, h2]
    refine Or.inl ⟨?_, rfl⟩
    rcases gw_events o (cityNameStr c) σ.qidLookup with hg | hg | hg <;> rw [hg] <;>
      simp [List.count_cons]

theorem processList_append (o : Oracle) (σ : St) (l1 l2 : List Fields) :
    processList o σ (l1 ++ l2) =
      ((processList o (processList o σ l1).1 l2).1,
       (processList o σ l1).2 ++ (processList o (processList o σ l1).1 l2).2) := by
  induction l1 generalizing σ with
  | nil => simp [processList]
  | cons c cs ih => simp [processList, ih, List.append_assoc]

theorem processList_qid_present (o : Oracle) (cs : List Fields) (σ : St) {n q : String}
    (h : alookup σ.qidLookup n = some q) :
    alookup (processList o σ cs).1.qidLookup n = some q ∧
    (processList o σ cs).2.count (Event.searchCall n) = 0 := by
  induction cs generalizing σ with
  | nil => exact ⟨h, rfl⟩
  | cons c rest ih =>
    rcases runStep_qid_present o σ c h with ⟨h1, h2⟩
    rcases ih (runStep o σ c).1 h1 with ⟨h3, h4⟩
    exact ⟨h3, by simp [processList, List.count_append, h2, h4]⟩

theorem processList_country_present (o : Oracle) (cs : List Fields) (σ : St) {k : Val}
    {v : Fields} (h : alookup σ.countryCache k = some v) :
    alookup (processList o σ cs).1.countryCache k = some v ∧
    (processList o σ cs).2.count (Event.infoCall "Country" k) = 0 := by
  induction cs generalizing σ with
  | nil => exact ⟨h, rfl⟩
  | cons c rest ih =>
    rcases runStep_country o σ c k with ⟨h1, h2⟩ | ⟨h1, h2, h3⟩
    · rw [h] at h2
      rcases ih (runStep o σ c).1 h2 with ⟨h3, h4⟩
      exact ⟨h3, by simp [processList, List.count_append, h1, h4]⟩
    · rw [h] at h3; cases h3
  
theorem processList_state_present (o : Oracle) (cs : List Fields) (σ : St) {k : Val}
    {v : Fields} (h : alookup σ.stateCache k = some v) :
    alookup (processList o σ cs).1.stateCache k = some v ∧
    (processList o σ cs).2.count (Event.infoCall "State" k) = 0 := by
  induction cs generalizing σ with
  | nil => exact ⟨h, rfl⟩
  | cons c rest ih =>
    rcases runStep_state o σ c k with ⟨h1, h2⟩ | ⟨h1, h2, h3⟩
    · rw [h] at h2
      rcases ih (runStep o σ c).1 h2 with ⟨h3, h4⟩
      exact ⟨h3, by simp [processList, List.count_append, h1, h4]⟩
    · rw [h] at h3; cases h3

theorem processList_country_le_one (o : Oracle) (cs : List Fields) (σ : St) (k : Val) :
    (processList o σ cs).2.count (Event.infoCall "Country" k) ≤ 1 := by
  induction cs generalizing σ with
  | nil => simp [processList]
  | cons c rest ih =>
    rcases runStep_country o σ c k with ⟨h1, _⟩ | ⟨h1, h2, _⟩
    · simpa [processList, List.count_append, h1] using ih (runStep o σ c).1
    · rcases ho : alookup (runStep o σ c).1.countryCache k with _ | v
      · rw [ho] at h2; cases h2
      · rcases processList_country_present o rest (runStep o σ c).1 ho with ⟨_, h4⟩
        simp [processList, List.count_append, h1, h4]

theorem processList_state_le_one (o : Oracle) (cs : List Fields) (σ : St) (k : Val) :
    (processList o σ cs).2.count (Event.infoCall "State" k) ≤ 1 := by
  induction cs generalizing σ with
  | nil => simp [processList]
  | cons c rest ih =>
    rcases runStep_state o σ c k with ⟨h1, _⟩ | ⟨h1, h2, _⟩
    · simpa [processList, List.count_append, h1] using ih (runStep o σ c).1
    · rcases ho : alookup (runStep o σ c).1.stateCache k with _ | v
      · rw [ho] at h2; cases h2
      · rcases processList_state_present o rest (runStep o σ c).1 ho with ⟨_, h4⟩
        simp [processList, List.count_append, h1, h4]

theorem runStep_ledger_extends (o : Oracle) (σ : St) (c : Fields) :
    ∃ t, (runStep o σ c).1.ledger = σ.ledger ++ t := by
  by_cases hres : resolved o σ.qidLookup (cityNameStr c) = true
  · rcases resolved_true o σ.qidLookup (cityNameStr c) hres with ⟨q', hq', hqt⟩
    rw [runStep_emit o σ c hq' hqt]
    exact ⟨[outRec o σ.countryCache σ.stateCache c q'], rfl⟩
  · rw [Bool.not_eq_true] at hres
    rw [(runStep_skip o σ c hres).1]
    exact ⟨[], by simp⟩

theorem processList_ledger_extends (o : Oracle) (cs : List Fields) (σ : St) :
    ∃ t, (processList o σ cs).1.ledger = σ.ledger ++ t := by
  induction cs generalizing σ with
  | nil => exact ⟨[], by simp [processList]⟩
  | cons c rest ih =>
    rcases runStep_ledger_extends o σ c with ⟨t1, h1⟩
    rcases ih (runStep o σ c).1 with ⟨t2, h2⟩
    exact ⟨t1 ++ t2, by simp [processList, h2, h1, List.append_assoc]⟩

theorem processList_resolved_false (o : Oracle) (cs : List Fields) (σ : St) (n : String)
    (h : resolved o σ.qidLookup n = false) :
    resolved o (processList o σ cs).1.qidLookup n = false := by
  induction cs generalizing σ with
  | nil => exact h
  | cons c rest ih => exact ih (runStep o σ c).1 (runStep_resolved_false o σ c n h)

/-- The merged city-info dict has either no keys (failed fetch) or exactly
the seven enrichment keys. -/
theorem enrich_city_keys (o : Oracle) (q : String) :
    (enrich_city o q).1.keys = [] ∨
    (enrich_city o q).1.keys =
      ["CityNameAr", "CountryQID", "StateQID", "Latitude", "Longitude",
       "Population", "IsoCode"] := by
  unfold enrich_city
  rcases he : o.entity (Val.vstr q) with u | d
  · exact Or.inl rfl
  · dsimp only
    split
    · exact Or.inr rfl
    · exact Or.inl rfl

theorem mergedCity_get (o : Oracle) (c : Fields) (q : String) {k : String}
    (h : k ∉ ["CityNameAr", "CountryQID", "StateQID", "Latitude", "Longitude",
              "Population", "IsoCode"]) :
    (mergedCity o c q).get k = c.get k := by
  unfold mergedCity
  rcases enrich_city_keys o q with hk | hk
  · exact Fields.get_update_not_mem _ _ _ (by rw [hk]; simp)
  · exact Fields.get_update_not_mem _ _ _ (by rw [hk]; exact h)

/-- The emitted Output Record agrees with the input record on every key the
pipeline does not write. -/
theorem outRec_get_frame (o : Oracle) (cc sc : List (Val × Fields)) (c : Fields)
    (q : String) {k : String}
    (h : k ∉ ["CityNameAr", "CountryQID", "StateQID", "Latitude", "Longitude",
              "Population", "IsoCode", "CountryDetails", "IsCapital", "StateDetails"]) :
    (outRec o cc sc c q).get k = c.get k := by
  simp only [List.mem_cons, not_or] at h
  unfold outRec sPhase
  rw [statePhase_get_frame _ _ _ _ h.2.2.2.2.2.2.2.2.2.1]
  unfold cPhase
  rw [countryPhase_get_frame _ _ _ _ _ h.2.2.2.2.2.2.2.1 h.2.2.2.2.2.2.2.2.1]
  exact mergedCity_get o c q (by simp [h.1, h.2.1, h.2.2.1, h.2.2.2.1, h.2.2.2.2.1,
    h.2.2.2.2.2.1, h.2.2.2.2.2.2.1])

theorem recName_outRec (o : Oracle) (cc sc : List (Val × Fields)) (c : Fields) (q : String) :
    recName (outRec o cc sc c q) = recName c := by
  unfold recName
  rw [outRec_get_frame o cc sc c q (by decide)]

/-- Every Output Record carries a boolean `IsCapital`. -/
theorem outRec_iscapital (o : Oracle) (cc sc : List (Val × Fields)) (c : Fields) (q : String) :
    (outRec o cc sc c q).get "IsCapital" =
      some (Val.vbool ((((enrich_city o q).1.get "CountryQID").getD Val.vnull).truthy &&
        decide ((((alookup (cPhase o cc c q).1
            (((enrich_city o q).1.get "CountryQID").getD Val.vnull)).getD Fields.nil).get
          "CapitalQID") = some (Val.vstr q)))) := by
  unfold outRec sPhase
  rw [statePhase_get_frame _ _ _ _ (by decide : ("IsCapital" : String) ≠ "StateDetails")]
  unfold cPhase
  exact countryPhase_iscapital o cc (mergedCity o c q) (enrich_city o q).1 q

/-- Per-step accounting: the ledger grows by the number of `appendOut`
events, sleeps equal appends, an appending step ends in the pacing delay,
and a non-appending (skipped or filtered-empty) step never sleeps. -/
theorem runStep_counts (o : Oracle) (σ : St) (c : Fields) :
    (runStep o σ c).1.ledger.length =
      σ.ledger.length + (runStep o σ c).2.count Event.appendOut ∧
    (runStep o σ c).2.count Event.sleepCall = (runStep o σ c).2.count Event.appendOut ∧
    ((runStep o σ c).1.ledger ≠ σ.ledger → (runStep o σ c).2.getLast? = some Event.sleepCall) ∧
    ((runStep o σ c).1.ledger = σ.ledger → (runStep o σ c).2.count Event.sleepCall = 0) := by
  by_cases hres : resolved o σ.qidLookup (cityNameStr c) = true
  · rcases resolved_true o σ.qidLookup (cityNameStr c) hres with ⟨q', hq', hqt⟩
    rw [runStep_emit o σ c hq' hqt]
    have hlen : (σ.ledger ++ [outRec o σ.countryCache σ.stateCache c q']).length =
        σ.ledger.length + 1 := by simp
    have hne : σ.ledger ++ [outRec o σ.countryCache σ.stateCache c q'] ≠ σ.ledger := by
      intro h
      have := congrArg List.length h
      simp at this
    refine ⟨?_, ?_, ?_, ?_⟩
    · rcases countryPhase_spec o σ.countryCache (mergedCity o c q') (enrich_city o q').1 q' with
        ⟨_, hev⟩ | ⟨_, _, _, hev⟩ <;>
      rcases statePhase_spec o σ.stateCache
          (countryPhase o σ.countryCache (mergedCity o c q') (enrich_city o q').1 q').2.1
          (enrich_city o q').1 with ⟨_, hev2⟩ | ⟨_, _, _, hev2⟩ <;>
      rcases gw_events o (cityNameStr c) σ.qidLookup with hg | hg | hg <;>
        simp [cPhase, sPhase, hg, hev, hev2, enrich_city_events, List.count_append,
          List.count_cons]
    · rcases countryPhase_spec o σ.countryCache (mergedCity o c q') (enrich_city o q').1 q' with
        ⟨_, hev⟩ | ⟨_, _, _, hev⟩ <;>
      rcases statePhase_spec o σ.stateCache
          (countryPhase o σ.countryCache (mergedCity o c q') (enrich_city o q').1 q').2.1
          (enrich_city o q').1 with ⟨_, hev2⟩ | ⟨_, _, _, hev2⟩ <;>
      rcases gw_events o (cityNameStr c) σ.qidLookup with hg | hg | hg <;>
        simp [cPhase, sPhase, hg, hev, hev2, enrich_city_events, List.count_append,
          List.count_cons]
    · intro _
      have : ∀ l : List Event, (l ++ [Event.appendOut, Event.sleepCall]).getLast? =
          some Event.sleepCall := by
        intro l
        rw [show l ++ [Event.appendOut, Event.sleepCall] =
          (l ++ [Event.appendOut]) ++ [Event.sleepCall] by simp]
        rw [List.getLast?_concat]
      rw [show (get_wikidata_id o (cityNameStr c) σ.qidLookup).2.2 ++
            ((enrich_city o q').2 ++ (cPhase o σ.countryCache c q').2.2 ++
             (sPhase o σ.stateCache σ.countryCache c q').2.2 ++
             [Event.appendOut, Event.sleepCall]) =
          ((get_wikidata_id o (cityNameStr c) σ.qidLookup).2.2 ++
            ((enrich_city o q').2 ++ (cPhase o σ.countryCache c q').2.2 ++
             (sPhase o σ.stateCache σ.countryCache c q').2.2)) ++
          [Event.appendOut, Event.sleepCall] by simp]
      exact this _
    · intro h
      exact absurd h hne
  · rw [Bool.not_eq_true] at hres
    rcases runStep_skip o σ c hres with ⟨h1, h2⟩
    rw [h1, h2]
    have hz : (get_wikidata_id o (cityNameStr c) σ.qidLookup).2.2.count Event.sleepCall = 0 ∧
        (get_wikidata_id o (cityNameStr c) σ.qidLookup).2.2.count Event.appendOut = 0 := by
      rcases gw_events o (cityNameStr c) σ.qidLookup with hg | hg | hg <;> rw [hg] <;>
        simp [List.count_cons]
    refine ⟨by simp [hz.2], by simp [hz.1, hz.2], ?_, fun _ => hz.1⟩
    intro h
    exact absurd rfl h

/-- Run-level accounting: the ledger grows by exactly the number of
appends, and one pacing delay happens per append. -/
theorem processList_counts (o : Oracle) (cs : List Fields) (σ : St) :
    (processList o σ cs).1.ledger.length =
      σ.ledger.length + (processList o σ cs).2.count Event.appendOut ∧
    (processList o σ cs).2.count Event.sleepCall =
      (processList o σ cs).2.count Event.appendOut := by
  induction cs generalizing σ with
  | nil => simp [processList]
  | cons c rest ih =>
    rcases runStep_counts o σ c with ⟨h1, h2, _, _⟩
    rcases ih (runStep o σ c).1 with ⟨h3, h4⟩
    constructor
    · simp only [processList, List.count_append]
      omega
    · simp only [processList, List.count_append]
      omega

/-- Dichotomy of a run for any member of its work list: afterwards, either
its name is on the ledger or its name still does not resolve to a truthy
id. -/
theorem processList_dichotomy (o : Oracle) (cs : List Fields) (σ : St) (c : Fields)
    (hc : c ∈ cs) :
    recName c ∈ (processList o σ cs).1.ledger.map recName ∨
    resolved o (processList o σ cs).1.qidLookup (cityNameStr c) = false := by
  induction cs generalizing σ with
  | nil => cases hc
  | cons c' rest ih =>
    rcases List.mem_cons.1 hc with hceq | hmem
    · subst hceq
      by_cases hres : resolved o σ.qidLookup (cityNameStr c) = true
      · left
        rcases resolved_true o σ.qidLookup (cityNameStr c) hres with ⟨q', hq', hqt⟩
        have hstep : (runStep o σ c).1.ledger =
            σ.ledger ++ [outRec o σ.countryCache σ.stateCache c q'] := by
          rw [runStep_emit o σ c hq' hqt]
        rcases processList_ledger_extends o rest (runStep o σ c).1 with ⟨t, ht⟩
        have : recName c ∈ (runStep o σ c).1.ledger.map recName := by
          rw [hstep]
          simp [recName_outRec]
        simp only [processList]
        rw [ht]
        simp only [List.map_append, List.mem_append]
        exact Or.inl this
      · right
        rw [Bool.not_eq_true] at hres
        simp only [processList]
        exact processList_resolved_false o rest (runStep o σ c).1 (cityNameStr c)
          (runStep_resolved_false o σ c (cityNameStr c) hres)
    · simp only [processList]
      exact ih (runStep o σ c').1 hmem

/-- A run whose whole work list fails to resolve appends nothing. -/
theorem processList_no_emit (o : Oracle) (cs : List Fields) (σ : St)
    (h : ∀ c ∈ cs, resolved o σ.qidLookup (cityNameStr c) = false) :
    (processList o σ cs).1.ledger = σ.ledger := by
  induction cs generalizing σ with
  | nil => rfl
  | cons c rest ih =>
    have hc := h c (List.mem_cons_self c rest)
    have hstep : (runStep o σ c).1.ledger = σ.ledger := by
      rw [(runStep_skip o σ c hc).1]
    simp only [processList]
    rw [ih (runStep o σ c).1 (fun c2 h2 =>
      runStep_resolved_false o σ c (cityNameStr c2) (h c2 (List.mem_cons_of_mem c h2)))]
    exact hstep

/-- Every record a run adds to the ledger is the Output Record of some
member of the work list (built against some intermediate caches). -/
theorem processList_new_from (o : Oracle) (cs : List Fields) (σ : St) :
    ∀ r ∈ (processList o σ cs).1.ledger, r ∉ σ.ledger →
      ∃ c, c ∈ cs ∧ ∃ cc sc q, q ≠ "" ∧ r = outRec o cc sc c q := by
  induction cs generalizing σ with
  | nil => exact fun r hr hnot => absurd hr hnot
  | cons c rest ih =>
    intro r hr hnot
    by_cases hmid : r ∈ (runStep o σ c).1.ledger
    · by_cases hres : resolved o σ.qidLookup (cityNameStr c) = true
      · rcases resolved_true o σ.qidLookup (cityNameStr c) hres with ⟨q', hq', hqt⟩
        have hstep : (runStep o σ c).1.ledger =
            σ.ledger ++ [outRec o σ.countryCache σ.stateCache c q'] := by
          rw [runStep_emit o σ c hq' hqt]
        rw [hstep] at hmid
        rcases List.mem_append.1 hmid with h1 | h1
        · exact absurd h1 hnot
        · rcases List.mem_singleton.1 h1 with rfl
          exact ⟨c, List.mem_cons_self c rest,
            σ.countryCache, σ.stateCache, q', hqt, rfl⟩
      · rw [Bool.not_eq_true] at hres
        rw [(runStep_skip o σ c hres).1] at hmid
        exact absurd hmid hnot
    · rcases ih (runStep o σ c).1 r (by simpa [processList] using hr) hmid with
        ⟨c2, hc2, cc, sc, q, hq, hrec⟩
      exact ⟨c2, List.mem_cons_of_mem c hc2, cc, sc, q, hq, hrec⟩

theorem load_processed_map_some (l : List Fields) (x : Val) :
    x ∈ load_processed_city_names (l.map Option.some) ↔ x ∈ l.map recName := by
  induction l with
  | nil => simp [load_processed_city_names]
  | cons r rest ih => simp [load_processed_city_names, ih]

theorem load_processed_skip (pre post : List (Option Fields)) :
    load_processed_city_names (pre ++ none :: post) =
      load_processed_city_names (pre ++ post) := by
  induction pre with
  | nil => rfl
  | cons a rest ih => cases a <;> simp [load_processed_city_names, ih]

theorem load_processed_card (l : List Fields) (h : (l.map recName).Nodup) :
    (load_processed_city_names (l.map Option.some)).card = l.length := by
  induction l with
  | nil => rfl
  | cons r rest ih =>
    simp only [List.map_cons, List.nodup_cons] at h
    have hnot : recName r ∉ load_processed_city_names (rest.map Option.some) := by
      rw [load_processed_map_some]; exact h.1
    simp [load_processed_city_names, Finset.card_insert_of_not_mem hnot, ih h.2]

theorem process_entries_def (o : Oracle) (cities : List Fields) (σ : St) :
    process_entries o cities σ = processList o σ (cities.filter (fun c =>
      decide (recName c ∉ load_processed_city_names (σ.ledger.map Option.some)))) := rfl

/-- C1.  Idempotent resumability: with the fixed deterministic oracle, a
second run of `process_entries` from the durable state persisted by the
first run appends no Output Record: it performs zero ledger appends and
leaves the ledger exactly as the first run left it.  (`wf` is the input
contract: every input record carries a string `CityNameEn`, which the
source presupposes by evaluating `city["CityNameEn"]`.) -/
theorem C1_idempotent_resumability (o : Oracle) (cities : List Fields) (σ : St)
    (_wf : ∀ c ∈ cities, ∃ s, c.get "CityNameEn" = some (Val.vstr s)) :
    (process_entries o cities (process_entries o cities σ).1).1.ledger =
      (process_entries o cities σ).1.ledger ∧
    (process_entries o cities (process_entries o cities σ).1).2.count Event.appendOut = 0 := by
  have key : ∀ c ∈ cities.filter (fun c => decide (recName c ∉
      load_processed_city_names ((process_entries o cities σ).1.ledger.map Option.some))),
      resolved o (process_entries o cities σ).1.qidLookup (cityNameStr c) = false := by
    intro c hc
    rcases List.mem_filter.1 hc with ⟨hcc, hdec⟩
    have hnot1 : recName c ∉ (process_entries o cities σ).1.ledger.map recName := by
      have h2 := of_decide_eq_true hdec
      rwa [load_processed_map_some] at h2
    rcases processList_ledger_extends o (cities.filter (fun c => decide (recName c ∉
        load_processed_city_names (σ.ledger.map Option.some)))) σ with ⟨t, ht⟩
    by_cases h0 : recName c ∈ load_processed_city_names (σ.ledger.map Option.some)
    · exfalso
      rw [load_processed_map_some] at h0
      refine hnot1 ?_
      rw [process_entries_def, ht]
      simp only [List.map_append, List.mem_append]
      exact Or.inl h0
    · have hT1 : c ∈ cities.filter (fun c => decide (recName c ∉
          load_processed_city_names (σ.ledger.map Option.some))) :=
        List.mem_filter.2 ⟨hcc, decide_eq_true h0⟩
      rcases processList_dichotomy o _ σ c hT1 with hmem | hres
      · exact absurd (by rw [process_entries_def]; exact hmem) hnot1
      · rw [process_entries_def]
        exact hres
  constructor
  · rw [process_entries_def o cities (process_entries o cities σ).1]
    exact processList_no_emit o _ _ key
  · have hcnt := (processList_counts o (cities.filter (fun c => decide (recName c ∉
      load_processed_city_names ((process_entries o cities σ).1.ledger.map Option.some))))
      (process_entries o cities σ).1).1
    have hled := processList_no_emit o _ _ key
    rw [process_entries_def o cities (process_entries o cities σ).1]
    rw [hled] at hcnt
    omega

/-- The empty durable state (no cache files, empty ledger). -/
def St0 : St := { qidLookup := [], countryCache := [], stateCache := [], ledger := [] }

/-- City document of the spec's concrete scenario: country `Q2`,
coordinates (10, 20). -/
def docQ1 : Doc :=
  { labels := [("ar", Val.vstr "تستفيل")],
    claims := [("P17", [Val.vobj (Fields.cons "id" (Val.vstr "Q2") Fields.nil)]),
               ("P625", [Val.vobj (Fields.cons "latitude" (Val.vnum 10)
                          (Fields.cons "longitude" (Val.vnum 20) Fields.nil))])] }

/-- Country document of the spec's concrete scenario: capital `Q1`, ISO
alpha-2 `TV`. -/
def docQ2 : Doc :=
  { labels := [("en", Val.vstr "Testland")],
    claims := [("P297", [Val.vstr "TV"]),
               ("P36", [Val.vobj (Fields.cons "id" (Val.vstr "Q1") Fields.nil)])] }

/-- Oracle of the spec's concrete scenario: `Testville` resolves to `Q1`;
`Q1` and `Q2` have the documents above. -/
def oT : Oracle :=
  { search := fun n => if n = "Testville" then Except.ok (some "Q1") else Except.ok none,
    entity := fun v =>
      if v = Val.vstr "Q1" then Except.ok docQ1
      else if v = Val.vstr "Q2" then Except.ok docQ2
      else Except.error () }

/-- Input record of the spec's concrete scenario. -/
def cityT : Fields := Fields.cons "CityNameEn" (Val.vstr "Testville") Fields.nil

/-- Witness for C1 at the concrete scenario. -/
theorem C1_witness :
    (∀ c ∈ [cityT], ∃ s, c.get "CityNameEn" = some (Val.vstr s)) ∧
    (process_entries oT [cityT] (process_entries oT [cityT] St0).1).1.ledger =
      (process_entries oT [cityT] St0).1.ledger := by
  have hwf : ∀ c ∈ [cityT], ∃ s, c.get "CityNameEn" = some (Val.vstr s) := by
    intro c hc
    rcases List.mem_singleton.1 hc with rfl
    exact ⟨"Testville", rfl⟩
  exact ⟨hwf, (C1_idempotent_resumability oT [cityT] St0 hwf).1⟩

/-- C3.  Capital correctness: every record a run appends carries a boolean
`IsCapital` (never absent); and for an emitted record, `IsCapital` is true
iff the extracted country EID is truthy and the `CapitalQID` of the record
stored under that EID in the country cache equals the city's own id — so it
is false when no country EID was extracted, when the country record is the
empty (unknown) record, and when the record has no `CapitalQID`. -/
theorem C3_capital_correctness (o : Oracle) (σ : St) (cs : List Fields) (c : Fields)
    (q : String) (hq : (get_wikidata_id o (cityNameStr c) σ.qidLookup).1 = some q)
    (hqt : q ≠ "") :
    (∀ r ∈ (processList o σ cs).1.ledger, r ∉ σ.ledger →
       ∃ b, r.get "IsCapital" = some (Val.vbool b)) ∧
    (∃ r, (runStep o σ c).1.ledger = σ.ledger ++ [r] ∧
       ∃ b, r.get "IsCapital" = some (Val.vbool b) ∧
         (b = true ↔
           ((((enrich_city o q).1.get "CountryQID").getD Val.vnull).truthy = true ∧
            (((alookup (runStep o σ c).1.countryCache
                (((enrich_city o q).1.get "CountryQID").getD Val.vnull)).getD
              Fields.nil).get "CapitalQID") = some (Val.vstr q)))) := by
  constructor
  · intro r hr hnot
    rcases processList_new_from o cs σ r hr hnot with ⟨c2, _, cc, sc, q2, _, rfl⟩
    exact ⟨_, outRec_iscapital o cc sc c2 q2⟩
  · rw [runStep_emit o σ c hq hqt]
    refine ⟨outRec o σ.countryCache σ.stateCache c q, rfl, _, outRec_iscapital o _ _ c q, ?_⟩
    simp [Bool.and_eq_true, decide_eq_true_iff]

/-- Witness for C3 at the spec's concrete scenario, together with the
scenario's expected outputs (`IsCapital` true, `Latitude` 10,
`CountryDetails.IsoAlpha2` `TV`). -/
theorem C3_witness :
    ((get_wikidata_id oT (cityNameStr cityT) St0.qidLookup).1 = some "Q1" ∧
     ("Q1" : String) ≠ "") ∧
    ((∀ r ∈ (processList oT St0 [cityT]).1.ledger, r ∉ St0.ledger →
        ∃ b, r.get "IsCapital" = some (Val.vbool b)) ∧
     (∃ r, (runStep oT St0 cityT).1.ledger = St0.ledger ++ [r] ∧
        ∃ b, r.get "IsCapital" = some (Val.vbool b) ∧
          (b = true ↔
            ((((enrich_city oT "Q1").1.get "CountryQID").getD Val.vnull).truthy = true ∧
             (((alookup (runStep oT St0 cityT).1.countryCache
                 (((enrich_city oT "Q1").1.get "CountryQID").getD Val.vnull)).getD
               Fields.nil).get "CapitalQID") = some (Val.vstr "Q1"))))) ∧
    ((runStep oT St0 cityT).1.ledger.headD Fields.nil).get "IsCapital" =
      some (Val.vbool true) ∧
    ((runStep oT St0 cityT).1.ledger.headD Fields.nil).get "Latitude" =
      some (Val.vnum 10) ∧
    (match ((runStep oT St0 cityT).1.ledger.headD Fields.nil).get "CountryDetails" with
     | some (Val.vobj f) => f.get "IsoAlpha2"
     | _ => none) = some (Val.vstr "TV") :=
  ⟨⟨by decide, by decide⟩,
   C3_capital_correctness oT St0 [cityT] cityT "Q1" (by decide) (by decide),
   by decide, by decide, by decide⟩

/-- C2.  Cache immutability / fetch-once.  (i) A run decomposes at any
point of its work list, so the remaining conjuncts — instantiated at an
arbitrary durable state — apply from any moment a key is present, within a
run and across runs.  (ii)-(iv) A key present in the name→EID, country or
state cache keeps its value through a whole `process_entries` run and no
search/fetch for it is issued during the run.  (v) Any run fetches a given
country EID at most once and a given state EID at most once, however many
cities reference it. -/
theorem C2_cache_immutability (o : Oracle) (σ : St) (cities past future : List Fields)
    (n q : String) (k sk : Val) (cv sv : Fields) :
    processList o σ (past ++ future) =
      ((processList o (processList o σ past).1 future).1,
       (processList o σ past).2 ++ (processList o (processList o σ past).1 future).2) ∧
    (alookup σ.qidLookup n = some q →
      alookup (process_entries o cities σ).1.qidLookup n = some q ∧
      (process_entries o cities σ).2.count (Event.searchCall n) = 0) ∧
    (alookup σ.countryCache k = some cv →
      alookup (process_entries o cities σ).1.countryCache k = some cv ∧
      (process_entries o cities σ).2.count (Event.infoCall "Country" k) = 0) ∧
    (alookup σ.stateCache sk = some sv →
      alookup (process_entries o cities σ).1.stateCache sk = some sv ∧
      (process_entries o cities σ).2.count (Event.infoCall "State" sk) = 0) ∧
    (process_entries o cities σ).2.count (Event.infoCall "Country" k) ≤ 1 ∧
    (process_entries o cities σ).2.count (Event.infoCall "State" sk) ≤ 1 := by
  refine ⟨processList_append o σ past future, ?_, ?_, ?_, ?_, ?_⟩ <;>
    rw [process_entries_def]
  · exact fun h => processList_qid_present o _ σ h
  · exact fun h => processList_country_present o _ σ h
  · exact fun h => processList_state_present o _ σ h
  · exact processList_country_le_one o _ σ k
  · exact processList_state_le_one o _ σ sk

/-- A durable state with one entry in each cache domain. -/
def StW : St :=
  { qidLookup := [("X", "Q9")],
    countryCache := [(Val.vstr "C", Fields.nil)],
    stateCache := [(Val.vstr "S", Fields.nil)],
    ledger := [] }

/-- Witness for C2: each cached key survives a concrete run untouched and
unfetched. -/
theorem C2_witness :
    (alookup StW.qidLookup "X" = some "Q9" ∧
     alookup (process_entries oT [cityT] StW).1.qidLookup "X" = some "Q9" ∧
     (process_entries oT [cityT] StW).2.count (Event.searchCall "X") = 0) ∧
    (alookup StW.countryCache (Val.vstr "C") = some Fields.nil ∧
     alookup (process_entries oT [cityT] StW).1.countryCache (Val.vstr "C") =
       some Fields.nil ∧
     (process_entries oT [cityT] StW).2.count
       (Event.infoCall "Country" (Val.vstr "C")) = 0) ∧
    (alookup StW.stateCache (Val.vstr "S") = some Fields.nil ∧
     alookup (process_entries oT [cityT] StW).1.stateCache (Val.vstr "S") =
       some Fields.nil ∧
     (process_entries oT [cityT] StW).2.count
       (Event.infoCall "State" (Val.vstr "S")) = 0) :=
  ⟨⟨by decide,
    (C2_cache_immutability oT StW [cityT] [] [cityT] "X" "Q9" (Val.vstr "C")
      (Val.vstr "S") Fields.nil Fields.nil).2.1 (by decide)⟩,
   ⟨by decide,
    (C2_cache_immutability oT StW [cityT] [] [cityT] "X" "Q9" (Val.vstr "C")
      (Val.vstr "S") Fields.nil Fields.nil).2.2.1 (by decide)⟩,
   ⟨by decide,
    (C2_cache_immutability oT StW [cityT] [] [cityT] "X" "Q9" (Val.vstr "C")
      (Val.vstr "S") Fields.nil Fields.nil).2.2.2.1 (by decide)⟩⟩

theorem runStep_qid_absent (o : Oracle) (σ : St) (c : Fields) (n : String)
    (habs : alookup σ.qidLookup n = none)
    (hfail : o.search n = Except.error () ∨ o.search n = Except.ok none) :
    alookup (runStep o σ c).1.qidLookup n = none := by
  rw [runStep_qidLookup]
  rcases get_wikidata_id_spec o (cityNameStr c) σ.qidLookup with ⟨q, hl, he⟩ |
    ⟨hl, hs, he⟩ | ⟨q, hl, hs, he⟩ <;> rw [he]
  · exact habs
  · exact habs
  · by_cases hmn : cityNameStr c = n
    · rw [hmn] at hs
      rcases hfail with hf | hf <;> rw [hf] at hs <;> cases hs
    · rw [alookup_aset_ne _ _ hmn]
      exact habs

theorem processList_qid_absent (o : Oracle) (cs : List Fields) (σ : St) (n : String)
    (habs : alookup σ.qidLookup n = none)
    (hfail : o.search n = Except.error () ∨ o.search n = Except.ok none) :
    alookup (processList o σ cs).1.qidLookup n = none := by
  induction cs generalizing σ with
  | nil => exact habs
  | cons c rest ih => exact ih (runStep o σ c).1 (runStep_qid_absent o σ c n habs hfail)

/-- When a name is uncached and its search fails, a run appends no record
bearing that name. -/
theorem processList_no_record (o : Oracle) (cs : List Fields) (σ : St) (n : String)
    (habs : alookup σ.qidLookup n = none)
    (hfail : o.search n = Except.error () ∨ o.search n = Except.ok none) :
    ∀ r ∈ (processList o σ cs).1.ledger, recName r = Val.vstr n → r ∈ σ.ledger := by
  induction cs generalizing σ with
  | nil => exact fun r hr _ => hr
  | cons c rest ih =>
    intro r hr hname
    have hstep : ∀ r2 ∈ (runStep o σ c).1.ledger, recName r2 = Val.vstr n →
        r2 ∈ σ.ledger := by
      intro r2 hr2 hname2
      by_cases hres : resolved o σ.qidLookup (cityNameStr c) = true
      · rcases resolved_true o σ.qidLookup (cityNameStr c) hres with ⟨q', hq', hqt⟩
        rw [runStep_emit o σ c hq' hqt] at hr2
        rcases List.mem_append.1 hr2 with h1 | h1
        · exact h1
        · exfalso
          rcases List.mem_singleton.1 h1 with rfl
          rw [recName_outRec] at hname2
          have hcn : cityNameStr c = n := by
            unfold recName at hname2
            rcases hg : c.get "CityNameEn" with _ | v
            · rw [hg] at hname2; cases hname2
            · rw [hg] at hname2
              simp only [Option.getD_some] at hname2
              unfold cityNameStr
              rw [hg, hname2]
          rw [hcn] at hq'
          rcases get_wikidata_id_spec o n σ.qidLookup with ⟨q2, hl, he⟩ |
            ⟨hl, hs, he⟩ | ⟨q2, hl, hs, he⟩
          · rw [hl] at habs; cases habs
          · rw [he] at hq'; cases hq'
          · rcases hfail with hf | hf <;> rw [hf] at hs <;> cases hs
      · rw [Bool.not_eq_true] at hres
        rw [(runStep_skip o σ c hres).1] at hr2
        exact hr2
    exact hstep r
      (ih (runStep o σ c).1 (runStep_qid_absent o σ c n habs hfail) r
        (by simpa [processList] using hr) hname) hname

/-- When an unresolvable name is on the work list, the run does issue a
search for it (the retry of a later run). -/
theorem processList_search_occurs (o : Oracle) (cs : List Fields) (σ : St) (n : String)
    (c : Fields) (hc : c ∈ cs) (hcn : cityNameStr c = n)
    (habs : alookup σ.qidLookup n = none)
    (hfail : o.search n = Except.error () ∨ o.search n = Except.ok none) :
    Event.searchCall n ∈ (processList o σ cs).2 := by
  induction cs generalizing σ with
  | nil => cases hc
  | cons c' rest ih =>
    rcases List.mem_cons.1 hc with hceq | hmem
    · subst hceq
      have hres : resolved o σ.qidLookup (cityNameStr c) = false := by
        unfold resolved
        rw [hcn]
        rcases get_wikidata_id_spec o n σ.qidLookup with ⟨q, hl, he⟩ |
          ⟨hl, hs, he⟩ | ⟨q, hl, hs, he⟩
        · rw [hl] at habs; cases habs
        · rw [he]
        · rcases hfail with hf | hf <;> rw [hf] at hs <;> cases hs
      have hmemstep : Event.searchCall n ∈ (runStep o σ c).2 := by
        rcases runStep_skip o σ c hres with ⟨_, h2⟩
        rw [h2, hcn]
        rcases get_wikidata_id_spec o n σ.qidLookup with ⟨q, hl, he⟩ |
          ⟨hl, hs, he⟩ | ⟨q, hl, hs, he⟩
        · rw [hl] at habs; cases habs
        · rw [he]; exact List.mem_singleton.2 rfl
        · rcases hfail with hf | hf <;> rw [hf] at hs <;> cases hs
      simp only [processList, List.mem_append]
      exact Or.inl hmemstep
    · simp only [processList, List.mem_append]
      exact Or.inr (ih (runStep o σ c').1 hmem
        (runStep_qid_absent o σ c' n habs hfail))

/-- C4.  Resolver-miss retry eligibility: for an uncached name whose search
fails (transport/parse error or zero results), the resolver returns
not-found and writes nothing; after a whole run the name is still absent
from the name→EID cache and no ledger record bears it; and a second run
still issues a search for it when an input record bears the name. -/
theorem C4_resolver_miss_retry (o : Oracle) (σ : St) (cities : List Fields) (n : String)
    (habs : alookup σ.qidLookup n = none)
    (hfail : o.search n = Except.error () ∨ o.search n = Except.ok none) :
    (get_wikidata_id o n σ.qidLookup).1 = none ∧
    (get_wikidata_id o n σ.qidLookup).2.1 = σ.qidLookup ∧
    alookup (process_entries o cities σ).1.qidLookup n = none ∧
    (∀ r ∈ (process_entries o cities σ).1.ledger, recName r = Val.vstr n →
       r ∈ σ.ledger) ∧
    (∀ c ∈ cities, c.get "CityNameEn" = some (Val.vstr n) →
       Val.vstr n ∉ σ.ledger.map recName →
       Event.searchCall n ∈
         (process_entries o cities (process_entries o cities σ).1).2) := by
  have h12 : (get_wikidata_id o n σ.qidLookup).1 = none ∧
      (get_wikidata_id o n σ.qidLookup).2.1 = σ.qidLookup := by
    rcases get_wikidata_id_spec o n σ.qidLookup with ⟨q, hl, he⟩ |
      ⟨_, _, he⟩ | ⟨q, hl, hs, he⟩
    · rw [hl] at habs; cases habs
    · rw [he]; exact ⟨rfl, rfl⟩
    · rcases hfail with hf | hf <;> rw [hf] at hs <;> cases hs
  refine ⟨h12.1, h12.2, ?_, ?_, ?_⟩
  · rw [process_entries_def]
    exact processList_qid_absent o _ σ n habs hfail
  · rw [process_entries_def]
    exact processList_no_record o _ σ n habs hfail
  · intro c hc hcget hnotled
    have hcn : cityNameStr c = n := by unfold cityNameStr; rw [hcget]
    have hrecn : recName c = Val.vstr n := by unfold recName; rw [hcget]; rfl
    have habs1 : alookup (process_entries o cities σ).1.qidLookup n = none := by
      rw [process_entries_def]
      exact processList_qid_absent o _ σ n habs hfail
    have hnot1 : Val.vstr n ∉ (process_entries o cities σ).1.ledger.map recName := by
      intro hmem
      rcases List.mem_map.1 hmem with ⟨r, hr, hrn⟩
      have hold : r ∈ σ.ledger := by
        rw [process_entries_def] at hr
        exact processList_no_record o _ σ n habs hfail r hr hrn
      exact hnotled (List.mem_map.2 ⟨r, hold, hrn⟩)
    have hT2 : c ∈ cities.filter (fun c2 => decide (recName c2 ∉
        load_processed_city_names
          ((process_entries o cities σ).1.ledger.map Option.some))) := by
      refine List.mem_filter.2 ⟨hc, decide_eq_true ?_⟩
      rw [load_processed_map_some, hrecn]
      exact hnot1
    rw [process_entries_def o cities (process_entries o cities σ).1]
    exact processList_search_occurs o _ (process_entries o cities σ).1 n c hT2 hcn
      habs1 hfail

/-- An input record whose name resolves to nothing. -/
def cityN : Fields := Fields.cons "CityNameEn" (Val.vstr "Nowhere") Fields.nil

/-- Witness for C4 at a concrete unresolvable name. -/
theorem C4_witness :
    (alookup St0.qidLookup "Nowhere" = none ∧
     (oT.search "Nowhere" = Except.error () ∨ oT.search "Nowhere" = Except.ok none)) ∧
    ((get_wikidata_id oT "Nowhere" St0.qidLookup).1 = none ∧
     (get_wikidata_id oT "Nowhere" St0.qidLookup).2.1 = St0.qidLookup ∧
     alookup (process_entries oT [cityN] St0).1.qidLookup "Nowhere" = none ∧
     (∀ r ∈ (process_entries oT [cityN] St0).1.ledger,
        recName r = Val.vstr "Nowhere" → r ∈ St0.ledger) ∧
     (∀ c ∈ [cityN], c.get "CityNameEn" = some (Val.vstr "Nowhere") →
        Val.vstr "Nowhere" ∉ St0.ledger.map recName →
        Event.searchCall "Nowhere" ∈
          (process_entries oT [cityN] (process_entries oT [cityN] St0).1).2)) :=
  ⟨⟨rfl, Or.inr rfl⟩,
   C4_resolver_miss_retry oT St0 [cityN] "Nowhere" rfl (Or.inr rfl)⟩

/-- C5 counterexample: a one-record input whose resolution fails.  The
record is on the work list and reaches the terminal Skipped state (the
search request is issued, nothing is appended), yet the run performs zero
pacing delays — the `continue` on a falsy qid bypasses `time.sleep(1)`,
so no delay follows this terminal transition. -/
theorem C5_counterexample :
    ([cityN].filter (fun c => decide (recName c ∉
       load_processed_city_names (St0.ledger.map Option.some)))).length = 1 ∧
    (process_entries oT [cityN] St0).2 = [Event.searchCall "Nowhere"] ∧
    (process_entries oT [cityN] St0).2.count Event.sleepCall = 0 ∧
    (process_entries oT [cityN] St0).1.ledger = [] :=
  ⟨by decide, by decide, by decide, by decide⟩

/-- C5 (amended): the pacing delay is performed after every Emitted record
— an appending step's event trace ends with the delay, and a run sleeps
exactly once per append — while a Skipped record proceeds to the next
record with no delay at all. -/
theorem C5_pacing_amended (o : Oracle) (σ : St) (c : Fields) (cs : List Fields) :
    ((runStep o σ c).1.ledger ≠ σ.ledger →
       (runStep o σ c).2.getLast? = some Event.sleepCall) ∧
    ((runStep o σ c).1.ledger = σ.ledger →
       (runStep o σ c).2.count Event.sleepCall = 0) ∧
    (processList o σ cs).2.count Event.sleepCall =
      (processList o σ cs).2.count Event.appendOut ∧
    (processList o σ cs).1.ledger.length =
      σ.ledger.length + (processList o σ cs).2.count Event.sleepCall := by
  rcases runStep_counts o σ c with ⟨_, _, h3, h4⟩
  rcases processList_counts o cs σ with ⟨h5, h6⟩
  exact ⟨h3, h4, h6, by rw [h6]; exact h5⟩

/-- Witness for the amended C5: an emitting step ends in the delay. -/
theorem C5_witness :
    (runStep oT St0 cityT).1.ledger ≠ St0.ledger ∧
    (runStep oT St0 cityT).2.getLast? = some Event.sleepCall :=
  ⟨by decide, (C5_pacing_amended oT St0 cityT [cityT]).1 (by decide)⟩

theorem replay_ledger_error_iff : ∀ (L : List LedgerLine) (acc : Finset Val),
    replay_ledger acc L = Except.error () ↔ LedgerLine.nonRecord ∈ L
  | [], acc => by simp [replay_ledger]
  | LedgerLine.malformed :: rest, acc => by
    simp [replay_ledger, replay_ledger_error_iff rest acc]
  | LedgerLine.record r :: rest, acc => by
    simp [replay_ledger, replay_ledger_error_iff rest (insert (recName r) acc)]
  | LedgerLine.nonRecord :: rest, acc => by simp [replay_ledger]

theorem load_ledger_error_iff (L : List LedgerLine) :
    load_ledger L = Except.error () ↔ LedgerLine.nonRecord ∈ L :=
  replay_ledger_error_iff L ∅

/-- On a crash-free ledger file the replay succeeds with exactly the
skip-malformed processed set. -/
theorem replay_ledger_ok : ∀ (L : List LedgerLine) (acc : Finset Val),
    LedgerLine.nonRecord ∉ L →
    replay_ledger acc L =
      Except.ok (acc ∪ load_processed_city_names (L.map lineAsOption))
  | [], acc, _ => by simp [replay_ledger, load_processed_city_names]
  | LedgerLine.malformed :: rest, acc, h => by
    simp only [List.mem_cons, not_or] at h
    simp [replay_ledger, lineAsOption, load_processed_city_names,
      replay_ledger_ok rest acc h.2]
  | LedgerLine.record r :: rest, acc, h => by
    simp only [List.mem_cons, not_or] at h
    simp only [replay_ledger, List.map_cons, lineAsOption,
      load_processed_city_names, replay_ledger_ok rest (insert (recName r) acc) h.2,
      Finset.insert_union, Finset.union_insert]
  | LedgerLine.nonRecord :: rest, acc, h => by
    exact absurd (List.mem_cons_self LedgerLine.nonRecord rest) h

/-- C6 counterexample: two startup inputs outside the claim's allowed
failure modes that nevertheless terminate the process — a valid input file
with an existing malformed country-cache file (the `json.load` inside
`load_json` is uncaught), and a valid input file with a ledger line that
parses to valid non-object JSON (`record.get("CityNameEn")` raises an
`AttributeError` only `JSONDecodeError` being caught). -/
theorem C6_counterexample :
    process_entries_startup (FileContent.valid (Val.vobj Fields.nil))
      FileContent.malformed FileContent.absent FileContent.absent [] =
      Except.error () ∧
    process_entries_startup (FileContent.valid (Val.vobj Fields.nil))
      FileContent.absent FileContent.absent FileContent.absent
      [LedgerLine.nonRecord] = Except.error () :=
  ⟨rfl, rfl⟩

/-- C6 (amended): startup fails exactly when the input file is missing or
unparseable, or one of the three cache files exists but is malformed, or a
ledger line parses to valid JSON that is not an object; an absent cache
file is read as the empty cache; and on a ledger free of such non-object
lines the replay never fails and yields the skip-malformed processed set
(unparseable lines are skipped). -/
theorem C6_startup_amended (i q c s : FileContent) (L : List LedgerLine) :
    (process_entries_startup i q c s L = Except.error () ↔
      (i = FileContent.absent ∨ i = FileContent.malformed ∨
       q = FileContent.malformed ∨ c = FileContent.malformed ∨
       s = FileContent.malformed ∨ LedgerLine.nonRecord ∈ L)) ∧
    load_json FileContent.absent = Except.ok (Val.vobj Fields.nil) ∧
    (LedgerLine.nonRecord ∉ L →
      load_ledger L = Except.ok (load_processed_city_names (L.map lineAsOption))) := by
  refine ⟨?_, rfl, ?_⟩
  · rcases hL : load_ledger L with u | pset
    · cases u
      have hmem : LedgerLine.nonRecord ∈ L := (load_ledger_error_iff L).1 hL
      cases i <;> cases q <;> cases c <;> cases s <;>
        simp [process_entries_startup, load_input, load_json, Except.bind, bind,
          hL, hmem]
    · have hmem : LedgerLine.nonRecord ∉ L := by
        intro hm
        rw [(load_ledger_error_iff L).2 hm] at hL
        cases hL
      cases i <;> cases q <;> cases c <;> cases s <;>
        simp [process_entries_startup, load_input, load_json, Except.bind, bind,
          hL, hmem]
  · intro h
    rw [load_ledger, replay_ledger_ok L ∅ h]
    simp

/-- An input record with a caller field named `Latitude`. -/
def city7 : Fields :=
  Fields.cons "CityNameEn" (Val.vstr "Testville")
    (Fields.cons "Latitude" (Val.vstr "keep") Fields.nil)

/-- C7 counterexample: a caller-supplied field named `Latitude` does not
survive: `city.update(city_info)` overwrites it with the fetched
coordinate, so the emitted record carries 10, not the caller's value. -/
theorem C7_counterexample :
    city7.get "Latitude" = some (Val.vstr "keep") ∧
    (process_entries oT [city7] St0).1.ledger.length = 1 ∧
    ((process_entries oT [city7] St0).1.ledger.headD Fields.nil).get "Latitude" =
      some (Val.vnum 10) :=
  ⟨by decide, by decide, by decide⟩

/-- C7 (amended): a caller field passes through to the Output Record with
its key and value unchanged whenever its key is none of the ten keys the
pipeline writes (`CityNameAr`, `CountryQID`, `StateQID`, `Latitude`,
`Longitude`, `Population`, `IsoCode`, `CountryDetails`, `IsCapital`,
`StateDetails`); fields with those names may be overwritten. -/
theorem C7_passthrough_amended (o : Oracle) (σ : St) (cs : List Fields) (k : String)
    (hk : k ∉ ["CityNameAr", "CountryQID", "StateQID", "Latitude", "Longitude",
               "Population", "IsoCode", "CountryDetails", "IsCapital", "StateDetails"]) :
    ∀ r ∈ (processList o σ cs).1.ledger, r ∉ σ.ledger →
      ∃ c ∈ cs, r.get k = c.get k ∧ recName r = recName c := by
  intro r hr hnot
  rcases processList_new_from o cs σ r hr hnot with ⟨c, hc, cc, sc, q, _, rfl⟩
  exact ⟨c, hc, outRec_get_frame o cc sc c q hk, recName_outRec o cc sc c q⟩

/-- An input record with an unclaimed caller field. -/
def cityE : Fields :=
  Fields.cons "CityNameEn" (Val.vstr "Testville")
    (Fields.cons "Extra" (Val.vstr "keep") Fields.nil)

/-- Witness for the amended C7 at the caller field `Extra`. -/
theorem C7_witness :
    (("Extra" : String) ∉ ["CityNameAr", "CountryQID", "StateQID", "Latitude",
       "Longitude", "Population", "IsoCode", "CountryDetails", "IsCapital",
       "StateDetails"]) ∧
    ∀ r ∈ (processList oT St0 [cityE]).1.ledger, r ∉ St0.ledger →
      ∃ c ∈ [cityE], r.get "Extra" = c.get "Extra" ∧ recName r = recName c :=
  ⟨by decide, C7_passthrough_amended oT St0 [cityE] "Extra" (by decide)⟩

/-- C8.  Malformed ledger tolerance: replaying a ledger file whose lines
are N parseable records with pairwise-distinct names (the spec's unique
name contract) plus one unparseable line, at any position, yields a
processed-set of exactly size N — the malformed line is skipped, never
fatal (replay is total). -/
theorem C8_malformed_ledger_tolerance (pre post : List Fields)
    (h : ((pre ++ post).map recName).Nodup) :
    (load_processed_city_names
      (pre.map Option.some ++ none :: post.map Option.some)).card =
      pre.length + post.length := by
  rw [show pre.map Option.some ++ none :: post.map Option.some =
    pre.map Option.some ++ [none] ++ post.map Option.some by simp]
  rw [show pre.map Option.some ++ [none] ++ post.map Option.some =
    pre.map Option.some ++ (none :: post.map Option.some) by simp]
  rw [load_processed_skip]
  rw [show pre.map Option.some ++ post.map Option.some =
    (pre ++ post).map Option.some by simp]
  rw [load_processed_card (pre ++ post) h]
  simp

/-- Witness for C8 with two valid records around the malformed line. -/
theorem C8_witness :
    ((([cityT] ++ [cityN]).map recName).Nodup) ∧
    (load_processed_city_names
      ([cityT].map Option.some ++ none :: [cityN].map Option.some)).card =
      [cityT].length + [cityN].length :=
  ⟨by decide, C8_malformed_ledger_tolerance [cityT] [cityN] (by decide)⟩

/-- Two oracles with the same search behaviour drive identical resolution
state and identical ledger names, whatever their entity endpoints do. -/
theorem runStep_search_only (o1 o2 : Oracle) (hs : o1.search = o2.search)
    (c : Fields) (σ1 σ2 : St) (hq : σ1.qidLookup = σ2.qidLookup)
    (hl : σ1.ledger.map recName = σ2.ledger.map recName) :
    (runStep o1 σ1 c).1.qidLookup = (runStep o2 σ2 c).1.qidLookup ∧
    (runStep o1 σ1 c).1.ledger.map recName =
      (runStep o2 σ2 c).1.ledger.map recName := by
  have hgw : get_wikidata_id o1 (cityNameStr c) σ1.qidLookup =
      get_wikidata_id o2 (cityNameStr c) σ2.qidLookup := by
    unfold get_wikidata_id
    rw [hs, hq]
  constructor
  · rw [runStep_qidLookup, runStep_qidLookup, hgw]
  · by_cases hres : resolved o1 σ1.qidLookup (cityNameStr c) = true
    · have hres2 : resolved o2 σ2.qidLookup (cityNameStr c) = true := by
        unfold resolved at hres ⊢
        rw [← hgw]
        exact hres
      rcases resolved_true o1 σ1.qidLookup (cityNameStr c) hres with ⟨q, hq1, hqt⟩
      have hq2 : (get_wikidata_id o2 (cityNameStr c) σ2.qidLookup).1 = some q := by
        rw [← hgw]; exact hq1
      rw [runStep_emit o1 σ1 c hq1 hqt, runStep_emit o2 σ2 c hq2 hqt]
      simp only [List.map_append]
      rw [hl]
      simp [recName_outRec]
    · rw [Bool.not_eq_true] at hres
      have hres2 : resolved o2 σ2.qidLookup (cityNameStr c) = false := by
        unfold resolved at hres ⊢
        rw [← hgw]
        exact hres
      rw [(runStep_skip o1 σ1 c hres).1, (runStep_skip o2 σ2 c hres2).1]
      exact hl

theorem processList_search_only (o1 o2 : Oracle) (hs : o1.search = o2.search)
    (cs : List Fields) (σ1 σ2 : St) (hq : σ1.qidLookup = σ2.qidLookup)
    (hl : σ1.ledger.map recName = σ2.ledger.map recName) :
    (processList o1 σ1 cs).1.qidLookup = (processList o2 σ2 cs).1.qidLookup ∧
    (processList o1 σ1 cs).1.ledger.map recName =
      (processList o2 σ2 cs).1.ledger.map recName := by
  induction cs generalizing σ1 σ2 with
  | nil => exact ⟨hq, hl⟩
  | cons c rest ih =>
    rcases runStep_search_only o1 o2 hs c σ1 σ2 hq hl with ⟨h1, h2⟩
    exact ih (runStep o1 σ1 c).1 (runStep o2 σ2 c).1 h1 h2

/-- The merged record's `Latitude` when the city document lacks P625: the
explicit absent value (Python `None`). -/
theorem mergedCity_latitude_null (o : Oracle) (q : String) (d : Doc)
    (hent : o.entity (Val.vstr q) = Except.ok d)
    (hP : alookup d.claims "P625" = none) :
    ∀ c : Fields, (mergedCity o c q).get "Latitude" = some Val.vnull ∧
      (enrich_city o q).1.get "Latitude" = some Val.vnull ∧
      (enrich_city o q).1.get "Longitude" = some Val.vnull := by
  intro c
  have hcl : get_claim d "P625" = Val.vnull := by
    unfold get_claim
    rw [hP]
  have hco : ∀ k2 : String, coordPart (get_claim d "P625") k2 = some Val.vnull := by
    intro k2
    rw [hcl]
    rfl
  refine ⟨?_, ?_, ?_⟩ <;>
    simp [mergedCity, enrich_city, hent, hco, Fields.update, Fields.get,
      Fields.get_set_ne, Fields.get_set_self]

/-- Keys the country/state blocks do not write read through to the merged
record. -/
theorem outRec_get_mid (o : Oracle) (cc sc : List (Val × Fields)) (c : Fields)
    (q : String) {k : String} (h1 : k ≠ "CountryDetails") (h2 : k ≠ "IsCapital")
    (h3 : k ≠ "StateDetails") :
    (outRec o cc sc c q).get k = (mergedCity o c q).get k := by
  unfold outRec sPhase
  rw [statePhase_get_frame _ _ _ _ h3]
  unfold cPhase
  rw [countryPhase_get_frame _ _ _ _ _ h1 h2]

/-- C9.  Graceful degradation of detail fetches: a transport/parse failure
yields the fully-empty entity record from `get_entity_info` and from
`enrich_city` (no exception escapes); a document lacking a property (P625
here) yields the explicit absent value for the affected fields, and the
emitted Output Record carries that absent `Latitude`; and the set of
emitted records (their count and names) does not depend on the entity
endpoint at all — fetch failures never stop subsequent records. -/
theorem C9_graceful_degradation (o o1 o2 : Oracle) (v : Val) (lvl q : String)
    (d : Doc) (σ : St) (c : Fields) (cs : List Fields) :
    (o.entity v = Except.error () → (get_entity_info o v lvl).1 = Fields.nil) ∧
    (o.entity (Val.vstr q) = Except.error () → (enrich_city o q).1 = Fields.nil) ∧
    (o.entity (Val.vstr q) = Except.ok d → alookup d.claims "P625" = none →
       (enrich_city o q).1.get "Latitude" = some Val.vnull ∧
       (enrich_city o q).1.get "Longitude" = some Val.vnull) ∧
    ((get_wikidata_id o (cityNameStr c) σ.qidLookup).1 = some q → q ≠ "" →
       o.entity (Val.vstr q) = Except.ok d → alookup d.claims "P625" = none →
       ∃ r, (runStep o σ c).1.ledger = σ.ledger ++ [r] ∧
         r.get "Latitude" = some Val.vnull) ∧
    (o1.search = o2.search →
       (processList o1 σ cs).1.qidLookup = (processList o2 σ cs).1.qidLookup ∧
       (processList o1 σ cs).1.ledger.map recName =
         (processList o2 σ cs).1.ledger.map recName) := by
  refine ⟨?_, ?_, ?_, ?_, ?_⟩
  · intro h
    unfold get_entity_info
    rw [h]
  · intro h
    unfold enrich_city
    rw [h]
  · intro hent hP
    exact ⟨((mergedCity_latitude_null o q d hent hP) Fields.nil).2.1,
      ((mergedCity_latitude_null o q d hent hP) Fields.nil).2.2⟩
  · intro hq hqt hent hP
    rw [runStep_emit o σ c hq hqt]
    refine ⟨outRec o σ.countryCache σ.stateCache c q, rfl, ?_⟩
    rw [outRec_get_mid o σ.countryCache σ.stateCache c q (by decide) (by decide)
      (by decide)]
    exact ((mergedCity_latitude_null o q d hent hP) c).1
  · intro hs
    exact processList_search_only o1 o2 hs cs σ σ rfl rfl

/-- State whose name cache already maps a city name onto the country
entity `Q2`. -/
def StQ : St :=
  { qidLookup := [("CityQ2", "Q2")], countryCache := [], stateCache := [],
    ledger := [] }

/-- An input record resolving (via `StQ`'s cache) to `Q2`, whose document
has no coordinates. -/
def cityQ2 : Fields := Fields.cons "CityNameEn" (Val.vstr "CityQ2") Fields.nil

/-- Witness for C9: failed fetches give empty records; a missing P625
yields an absent Latitude, also in the emitted record. -/
theorem C9_witness :
    (oT.entity (Val.vstr "ZZ") = Except.error ()) ∧
    ((get_entity_info oT (Val.vstr "ZZ") "Country").1 = Fields.nil) ∧
    ((enrich_city oT "ZZ").1 = Fields.nil) ∧
    ((enrich_city oT "Q2").1.get "Latitude" = some Val.vnull ∧
     (enrich_city oT "Q2").1.get "Longitude" = some Val.vnull) ∧
    (∃ r, (runStep oT StQ cityQ2).1.ledger = StQ.ledger ++ [r] ∧
       r.get "Latitude" = some Val.vnull) :=
  ⟨rfl,
   (C9_graceful_degradation oT oT oT (Val.vstr "ZZ") "Country" "ZZ" docQ2 StQ
     cityQ2 []).1 rfl,
   (C9_graceful_degradation oT oT oT (Val.vstr "ZZ") "Country" "ZZ" docQ2 StQ
     cityQ2 []).2.1 rfl,
   (C9_graceful_degradation oT oT oT (Val.vstr "ZZ") "Country" "Q2" docQ2 StQ
     cityQ2 []).2.2.1 rfl (by decide),
   (C9_graceful_degradation oT oT oT (Val.vstr "ZZ") "Country" "Q2" docQ2 StQ
     cityQ2 []).2.2.2.1 (by decide) (by decide) rfl (by decide)⟩

theorem get_entity_info_error (o : Oracle) (v : Val) (lvl : String)
    (h : o.entity v = Except.error ()) :
    (get_entity_info o v lvl).1 = Fields.nil := by
  unfold get_entity_info
  rw [h]

theorem countryPhase_miss (o : Oracle) (cc : List (Val × Fields)) (city ci : Fields)
    (qid : String) (ht : ((ci.get "CountryQID").getD Val.vnull).truthy = true)
    (hm : alookup cc ((ci.get "CountryQID").getD Val.vnull) = none) :
    (countryPhase o cc city ci qid).1 =
      aset cc ((ci.get "CountryQID").getD Val.vnull)
        (get_entity_info o ((ci.get "CountryQID").getD Val.vnull) "Country").1 ∧
    (countryPhase o cc city ci qid).2.2 =
      [Event.infoCall "Country" ((ci.get "CountryQID").getD Val.vnull),
       Event.saveCountry] := by
  constructor <;> simp [countryPhase, ht, hm, get_entity_info]

theorem statePhase_miss (o : Oracle) (sc : List (Val × Fields)) (city ci : Fields)
    (ht : ((ci.get "StateQID").getD Val.vnull).truthy = true)
    (hm : alookup sc ((ci.get "StateQID").getD Val.vnull) = none) :
    (statePhase o sc city ci).1 =
      aset sc ((ci.get "StateQID").getD Val.vnull)
        (get_entity_info o ((ci.get "StateQID").getD Val.vnull) "State").1 ∧
    (statePhase o sc city ci).2.2 =
      [Event.infoCall "State" ((ci.get "StateQID").getD Val.vnull),
       Event.saveState] := by
  constructor <;> simp [statePhase, ht, hm, get_entity_info]

/-- The country EID the step extracts for a resolved city (`cqid` in the
source). -/
def extractedCountryQID (o : Oracle) (q : String) : Val :=
  ((enrich_city o q).1.get "CountryQID").getD Val.vnull

/-- The state EID the step extracts for a resolved city (`sqid` in the
source). -/
def extractedStateQID (o : Oracle) (q : String) : Val :=
  ((enrich_city o q).1.get "StateQID").getD Val.vnull

/-- C10.  Failed parent fetches are permanently cached: when the country
(resp. state) detail fetch of an emitted city fails, the empty record is
stored under that EID in the corresponding cache and saved at once (the
save event follows the fetch in the step's trace), and neither the rest of
this run nor any later processing fetches that EID again — it stays bound
to the empty record. -/
theorem C10_failed_parent_fetch_cached (o : Oracle) (σ : St) (c : Fields) (q : String)
    (cs : List Fields)
    (hq : (get_wikidata_id o (cityNameStr c) σ.qidLookup).1 = some q)
    (hqt : q ≠ "") :
    ((extractedCountryQID o q).truthy = true →
     alookup σ.countryCache (extractedCountryQID o q) = none →
     o.entity (extractedCountryQID o q) = Except.error () →
     alookup (runStep o σ c).1.countryCache (extractedCountryQID o q) =
       some Fields.nil ∧
     Event.infoCall "Country" (extractedCountryQID o q) ∈ (runStep o σ c).2 ∧
     Event.saveCountry ∈ (runStep o σ c).2 ∧
     (processList o (runStep o σ c).1 cs).2.count
       (Event.infoCall "Country" (extractedCountryQID o q)) = 0 ∧
     alookup (processList o (runStep o σ c).1 cs).1.countryCache
       (extractedCountryQID o q) = some Fields.nil) ∧
    ((extractedStateQID o q).truthy = true →
     alookup σ.stateCache (extractedStateQID o q) = none →
     o.entity (extractedStateQID o q) = Except.error () →
     alookup (runStep o σ c).1.stateCache (extractedStateQID o q) =
       some Fields.nil ∧
     Event.infoCall "State" (extractedStateQID o q) ∈ (runStep o σ c).2 ∧
     Event.saveState ∈ (runStep o σ c).2 ∧
     (processList o (runStep o σ c).1 cs).2.count
       (Event.infoCall "State" (extractedStateQID o q)) = 0 ∧
     alookup (processList o (runStep o σ c).1 cs).1.stateCache
       (extractedStateQID o q) = some Fields.nil) := by
  constructor
  · intro ht hm herr
    simp only [extractedCountryQID] at ht hm herr ⊢
    rcases countryPhase_miss o σ.countryCache (mergedCity o c q) (enrich_city o q).1
      q ht hm with ⟨hcc, hev⟩
    have hcache : alookup (runStep o σ c).1.countryCache
        (((enrich_city o q).1.get "CountryQID").getD Val.vnull) = some Fields.nil := by
      rw [runStep_emit o σ c hq hqt]
      simp only [cPhase]
      rw [hcc, get_entity_info_error o _ "Country" herr, alookup_aset_self]
    refine ⟨hcache, ?_, ?_, ?_, ?_⟩
    · rw [runStep_emit o σ c hq hqt]
      simp only [cPhase, sPhase, List.mem_append]
      rw [hev]
      simp
    · rw [runStep_emit o σ c hq hqt]
      simp only [cPhase, sPhase, List.mem_append]
      rw [hev]
      simp
    · exact (processList_country_present o cs (runStep o σ c).1 hcache).2
    · exact (processList_country_present o cs (runStep o σ c).1 hcache).1
  · intro ht hm herr
    simp only [extractedStateQID] at ht hm herr ⊢
    rcases statePhase_miss o σ.stateCache
      (cPhase o σ.countryCache c q).2.1 (enrich_city o q).1 ht hm with ⟨hsc, hev⟩
    simp only [cPhase] at hsc hev
    have hcache : alookup (runStep o σ c).1.stateCache
        (((enrich_city o q).1.get "StateQID").getD Val.vnull) = some Fields.nil := by
      rw [runStep_emit o σ c hq hqt]
      simp only [sPhase, cPhase]
      rw [hsc, get_entity_info_error o _ "State" herr, alookup_aset_self]
    refine ⟨hcache, ?_, ?_, ?_, ?_⟩
    · rw [runStep_emit o σ c hq hqt]
      simp only [cPhase, sPhase, List.mem_append]
      rw [hev]
      simp
    · rw [runStep_emit o σ c hq hqt]
      simp only [cPhase, sPhase, List.mem_append]
      rw [hev]
      simp
    · exact (processList_state_present o cs (runStep o σ c).1 hcache).2
    · exact (processList_state_present o cs (runStep o σ c).1 hcache).1

/-- City document whose parent country (`CX`) and state (`SX`) both fail to
fetch. -/
def docE : Doc :=
  { labels := [],
    claims := [("P17", [Val.vobj (Fields.cons "id" (Val.vstr "CX") Fields.nil)]),
               ("P131", [Val.vobj (Fields.cons "id" (Val.vstr "SX") Fields.nil)]),
               ("P625", [Val.vobj (Fields.cons "latitude" (Val.vnum 1)
                          (Fields.cons "longitude" (Val.vnum 2) Fields.nil))])] }

/-- Oracle whose entity endpoint fails for every EID except the city
itself. -/
def oE : Oracle :=
  { search := fun n => if n = "Etown" then Except.ok (some "QE") else Except.ok none,
    entity := fun v =>
      if v = Val.vstr "QE" then Except.ok docE else Except.error () }

def cityE2 : Fields := Fields.cons "CityNameEn" (Val.vstr "Etown") Fields.nil

/-- Witness for C10: both failing parent fetches are cached as empty
records, saved, and never re-fetched. -/
theorem C10_witness :
    ((get_wikidata_id oE (cityNameStr cityE2) St0.qidLookup).1 = some "QE" ∧
     ("QE" : String) ≠ "" ∧
     (extractedCountryQID oE "QE").truthy = true ∧
     alookup St0.countryCache (extractedCountryQID oE "QE") = none ∧
     oE.entity (extractedCountryQID oE "QE") = Except.error () ∧
     (extractedStateQID oE "QE").truthy = true ∧
     alookup St0.stateCache (extractedStateQID oE "QE") = none ∧
     oE.entity (extractedStateQID oE "QE") = Except.error ()) ∧
    (alookup (runStep oE St0 cityE2).1.countryCache (extractedCountryQID oE "QE") =
       some Fields.nil ∧
     Event.infoCall "Country" (extractedCountryQID oE "QE") ∈ (runStep oE St0 cityE2).2 ∧
     Event.saveCountry ∈ (runStep oE St0 cityE2).2 ∧
     (processList oE (runStep oE St0 cityE2).1 [cityE2]).2.count
       (Event.infoCall "Country" (extractedCountryQID oE "QE")) = 0 ∧
     alookup (processList oE (runStep oE St0 cityE2).1 [cityE2]).1.countryCache
       (extractedCountryQID oE "QE") = some Fields.nil) ∧
    (alookup (runStep oE St0 cityE2).1.stateCache (extractedStateQID oE "QE") =
       some Fields.nil ∧
     Event.infoCall "State" (extractedStateQID oE "QE") ∈ (runStep oE St0 cityE2).2 ∧
     Event.saveState ∈ (runStep oE St0 cityE2).2 ∧
     (processList oE (runStep oE St0 cityE2).1 [cityE2]).2.count
       (Event.infoCall "State" (extractedStateQID oE "QE")) = 0 ∧
     alookup (processList oE (runStep oE St0 cityE2).1 [cityE2]).1.stateCache
       (extractedStateQID oE "QE") = some Fields.nil) :=
  ⟨⟨by decide, by decide, by decide, by decide, rfl, by decide, by decide,
    rfl⟩,
   (C10_failed_parent_fetch_cached oE St0 cityE2 "QE" [cityE2] (by decide)
     (by decide)).1 (by decide) (by decide) rfl,
   (C10_failed_parent_fetch_cached oE St0 cityE2 "QE" [cityE2] (by decide)
     (by decide)).2 (by decide) (by decide) rfl⟩
